import Mathlib

/-!
Verification development for the chttp2 transport write engine
(src/core/ext/transport/chttp2/transport/writing.c).

The data model and the two entry points (grpc_chttp2_begin_write,
grpc_chttp2_end_write) are translated from the C source.  Collaborators
that live outside this file in the original tree (stream list operations,
frame encoders, closure completion, stream refcounting) are modelled from
the design documentation; each such definition carries a doc comment
saying so.  Frames are kept abstract: the model records which frame was
emitted, for which stream, with which payload length and flags, since the
byte level encoding is an external collaborator.
-/

namespace GrpcWriting

/-- Outcome value threaded through completed closures. -/
inductive Error where
  | ok
  | failed (code : Nat)
deriving DecidableEq, Repr

/-- Metadata batch; the write engine only ever inspects emptiness. -/
structure Metadata where
  isEmpty : Bool
deriving DecidableEq, Repr

/-- Abstract frame, one per encoder call in the C source. -/
inductive Frame where
  | settings
  | headers (streamId : Nat) (isTrailer : Bool)
  | data (streamId : Nat) (len : Nat) (isLast : Bool)
  | windowUpdate (streamId : Nat) (amount : Nat)
  | rstStream (streamId : Nat)
deriving DecidableEq, Repr

/-- Entry of the write completion callback list: grpc_chttp2_write_cb. -/
structure WriteCb where
  call_at_byte : Int
  cbId : Nat
deriving DecidableEq, Repr

/-- Tag identifying which closure a completion event fired. -/
inductive CompletionTag where
  | writeCb (cbId : Nat)
  | initialMetadataFinished (streamId : Nat)
  | trailingMetadataFinished (streamId : Nat)
deriving DecidableEq, Repr

/-- Stream state: the fields of grpc_chttp2_stream read or written by
writing.c.  Buffers are tracked by length only. -/
structure Stream where
  outgoing_window : Int
  announce_window : Nat
  flow_controlled_buffer : Nat
  sending_bytes : Nat
  flow_controlled_bytes_written : Int
  sent_initial_metadata : Bool
  sent_trailing_metadata : Bool
  send_initial_metadata : Option Metadata
  send_trailing_metadata : Option Metadata
  fetching_send_message : Bool
  on_write_finished_cbs : List WriteCb
  read_closed : Bool
  write_closed : Bool
  refcount : Nat

/-- Transport state: the fields of grpc_chttp2_transport read or written
by writing.c.  The three stream lists hold stream ids; the streams field
maps a stream id to its state.  The acked max frame size setting is the
only settings entry the write engine consumes. -/
structure Transport where
  is_client : Bool
  outgoing_window : Int
  announce_incoming_window : Nat
  max_frame_size : Nat
  dirtied_local_settings : Bool
  sent_local_settings : Bool
  force_send_settings : Bool
  qbuf : List Frame
  outbuf : List Frame
  writable : List Nat
  stalled_by_transport : List Nat
  writing : List Nat
  streams : Nat → Stream
  write_cb_pool : List WriteCb
  completed : List (CompletionTag × Error)

/-- Conversion of an int64 value to uint32 with C semantics (reduction
modulo 2^32), used for the (uint32_t) cast on GPR_MIN of windows. -/
def u32ofI64 (x : Int) : Nat := (x % (2 ^ 32)).toNat

/-- Replace the state of stream i inside the transport. -/
def updStream (t : Transport) (i : Nat) (s : Stream) : Transport :=
  { t with streams := fun j => if j = i then s else t.streams j }

/-- Modelled from the spec (4.2): adding a stream to a readiness list is
a no-op when the stream is already a member; otherwise it is appended
(FIFO order over one pass). -/
def listAdd (l : List Nat) (i : Nat) : List Nat := if i ∈ l then l else l ++ [i]

/-- Test grpc_metadata_batch_is_empty under the non-NULL guard used at
the two call sites: a missing batch is not an empty batch. -/
def trailingEmpty : Option Metadata → Bool
  | some m => m.isEmpty
  | none => false

/-- Translation of finish_write_cb: complete the closure with the pass
outcome and return the callback object to the transport free pool. -/
def finish_write_cb (t : Transport) (cb : WriteCb) (error : Error) : Transport :=
  { t with completed := t.completed ++ [(CompletionTag.writeCb cb.cbId, error)],
           write_cb_pool := cb :: t.write_cb_pool }

/-- Translation of the while loop of update_list: each callback whose
threshold is reached fires; the others are prepended back (via
add_to_write_list) onto the stream list. -/
def update_list_loop (i : Nat) (error : Error) : Transport → List WriteCb → Transport
  | t, [] => t
  | t, cb :: next =>
    if cb.call_at_byte ≤ (t.streams i).flow_controlled_bytes_written then
      update_list_loop i error (finish_write_cb t cb error) next
    else
      update_list_loop i error
        (updStream t i { t.streams i with
          on_write_finished_cbs := cb :: (t.streams i).on_write_finished_cbs }) next

/-- Translation of update_list: detach the list, advance
flow_controlled_bytes_written by the confirmed bytes, then drain. -/
def update_list (t : Transport) (i : Nat) (send_bytes : Int) (error : Error) : Transport :=
  let s := t.streams i
  let t1 := updStream t i { s with
    flow_controlled_bytes_written := s.flow_controlled_bytes_written + send_bytes,
    on_write_finished_cbs := [] }
  update_list_loop i error t1 s.on_write_finished_cbs

/-- Lines 120 to 129 of grpc_chttp2_begin_write: emit initial metadata if
it is queued and not yet sent.  Returns the new transport, the local
sent_initial_metadata value, and whether this site set now_writing. -/
def phaseInitialMetadata (t : Transport) (i : Nat) : Transport × Bool × Bool :=
  let s := t.streams i
  if s.sent_initial_metadata = false ∧ s.send_initial_metadata.isSome then
    (updStream { t with outbuf := t.outbuf ++ [Frame.headers i false] } i
      { s with send_initial_metadata := none, sent_initial_metadata := true },
     true, true)
  else
    (t, s.sent_initial_metadata, false)

/-- Lines 130 to 137: emit a pending stream window update and debit the
announce counter by the announced amount.  Returns whether a window
update frame was emitted; the C code does not set now_writing here. -/
def phaseAnnounce (t : Transport) (i : Nat) : Transport × Bool :=
  let s := t.streams i
  if 0 < s.announce_window then
    (updStream { t with outbuf := t.outbuf ++ [Frame.windowUpdate i s.announce_window] } i
      { s with announce_window := s.announce_window - s.announce_window }, true)
  else (t, false)

/-- Line 141: the uint32 cast of GPR_MIN(max frame size, GPR_MIN(stream
window, transport window)). -/
def max_outgoing (t : Transport) (s : Stream) : Nat :=
  u32ofI64 (min (t.max_frame_size : Int) (min s.outgoing_window t.outgoing_window))

/-- Lines 139 to 180: send body bytes as allowed by flow control.
Returns (transport, data frame emitted, bytes sent, stalled on
transport).  The two final components both set now_writing in C. -/
def phaseData (t : Transport) (i : Nat) : Transport × Bool × Nat × Bool :=
  let s := t.streams i
  if 0 < s.flow_controlled_buffer then
    let mo := max_outgoing t s
    if 0 < mo then
      let send_bytes := min mo s.flow_controlled_buffer
      let is_last_data_frame : Bool :=
        !s.fetching_send_message && decide (send_bytes = s.flow_controlled_buffer)
      let is_last_frame : Bool := is_last_data_frame && trailingEmpty s.send_trailing_metadata
      let t1 := { t with outbuf := t.outbuf ++ [Frame.data i send_bytes is_last_frame],
                         outgoing_window := t.outgoing_window - send_bytes }
      let s1 := { s with flow_controlled_buffer := s.flow_controlled_buffer - send_bytes,
                         outgoing_window := s.outgoing_window - send_bytes }
      let s2 := if is_last_frame then
          { s1 with send_trailing_metadata := none, sent_trailing_metadata := true } else s1
      let t2 := if is_last_frame && !t1.is_client && !s2.read_closed then
          { t1 with outbuf := t1.outbuf ++ [Frame.rstStream i] } else t1
      let s3 := { s2 with sending_bytes := s2.sending_bytes + send_bytes }
      let t3 := updStream t2 i s3
      let t4 := if 0 < s3.flow_controlled_buffer then
          { (updStream t3 i { s3 with refcount := s3.refcount + 1 }) with
            writable := listAdd t3.writable i }
        else t3
      (t4, true, send_bytes, false)
    else
      if t.outgoing_window = 0 then
        ({ t with stalled_by_transport := listAdd t.stalled_by_transport i }, false, 0, true)
      else (t, false, 0, false)
  else (t, false, 0, false)

/-- Lines 181 to 202: emit trailing metadata once the buffer is drained
and no more body is expected: an empty terminal DATA frame when the
batch is empty, else a trailing HEADERS frame. -/
def phaseTrailing (t : Transport) (i : Nat) : Transport × Bool :=
  let s := t.streams i
  match s.send_trailing_metadata with
  | none => (t, false)
  | some m =>
    if s.fetching_send_message = false ∧ s.flow_controlled_buffer = 0 then
      let t1 := if m.isEmpty then { t with outbuf := t.outbuf ++ [Frame.data i 0 true] }
                else { t with outbuf := t.outbuf ++ [Frame.headers i true] }
      let t2 := updStream t1 i
        { (t1.streams i) with send_trailing_metadata := none, sent_trailing_metadata := true }
      let t3 := if !t.is_client && !s.read_closed then
          { t2 with outbuf := t2.outbuf ++ [Frame.rstStream i] } else t2
      (t3, true)
    else (t, false)

/-- Result of one iteration of the writable stream loop, before the
final reclassification, with what the iteration did. -/
structure IterResult where
  t : Transport
  emittedInitialMetadata : Bool
  emittedWindowUpdate : Bool
  emittedDataFrame : Bool
  sentBytes : Nat
  stalledOnTransport : Bool
  emittedTrailingMetadata : Bool
  now_writing : Bool

/-- Lines 110 to 203: the body of the writable stream loop for one
popped stream, up to but not including the now_writing classification.
The body and trailer phases run only under the local
sent_initial_metadata value, exactly as in the C source. -/
def processIter (t : Transport) (i : Nat) : IterResult :=
  let r1 := phaseInitialMetadata t i
  let r2 := phaseAnnounce r1.1 i
  if r1.2.1 then
    let r3 := phaseData r2.1 i
    let r4 := phaseTrailing r3.1 i
    { t := r4.1, emittedInitialMetadata := r1.2.2, emittedWindowUpdate := r2.2,
      emittedDataFrame := r3.2.1, sentBytes := r3.2.2.1, stalledOnTransport := r3.2.2.2,
      emittedTrailingMetadata := r4.2,
      now_writing := r1.2.2 || r3.2.1 || r3.2.2.2 || r4.2 }
  else
    { t := r2.1, emittedInitialMetadata := r1.2.2, emittedWindowUpdate := r2.2,
      emittedDataFrame := false, sentBytes := 0, stalledOnTransport := false,
      emittedTrailingMetadata := false, now_writing := r1.2.2 }

/-- Lines 205 to 213: move a stream that produced output onto the
writing list (dropping the duplicate reference when it is already a
member), else remove it from every write list and release its
reference.  List removal is modelled from the spec (4.2,
leave_all_lists); the reference bookkeeping mirrors the explicit
GRPC_CHTTP2_STREAM_UNREF calls of the source. -/
def phaseFinish (t : Transport) (i : Nat) (now_writing : Bool) : Transport :=
  if now_writing then
    if i ∈ t.writing then
      updStream t i { t.streams i with refcount := (t.streams i).refcount - 1 }
    else
      { t with writing := t.writing ++ [i] }
  else
    let t1 := { t with writable := t.writable.filter (fun j => j != i),
                       stalled_by_transport := t.stalled_by_transport.filter (fun j => j != i),
                       writing := t.writing.filter (fun j => j != i) }
    updStream t1 i { t1.streams i with refcount := (t1.streams i).refcount - 1 }

/-- One full iteration of the writable stream loop. -/
def processOne (t : Transport) (i : Nat) : Transport :=
  let r := processIter t i
  phaseFinish r.t i r.now_writing

/-- Fuel indexed unfolding of the while loop over writable streams.  The
pop is modelled from the spec (4.2, FIFO pop); a forked stream re-enters
the list and is reconsidered within the same pass, as in the source. -/
def writeLoop : Nat → Transport → Transport
  | 0, t => t
  | fuel + 1, t =>
    match t.writable with
    | [] => t
    | i :: rest => writeLoop fuel (processOne { t with writable := rest } i)

/-- Fuel sufficient to drain the writable list: every iteration either
drops an entry for good or re-adds the same stream with a strictly
smaller buffer, so this measure strictly decreases. -/
def loopFuel (t : Transport) : Nat :=
  (t.writable.map (fun i => 1 + (t.streams i).flow_controlled_buffer)).sum

/-- Lines 82 to 91: emit a SETTINGS frame when local settings changed
and were not yet announced; one way transition to sent. -/
def maybeSendSettings (t : Transport) : Transport :=
  if t.dirtied_local_settings = true ∧ t.sent_local_settings = false then
    { t with outbuf := t.outbuf ++ [Frame.settings],
             force_send_settings := false,
             dirtied_local_settings := false,
             sent_local_settings := true }
  else t

/-- Lines 93 to 95: flush pre-queued control bytes into the pass output
buffer, ahead of per-stream frames. -/
def flushQbuf (t : Transport) : Transport :=
  { t with outbuf := t.outbuf ++ t.qbuf, qbuf := [] }

/-- Lines 101 to 106: when the connection window is positive, every
stream stalled by the transport becomes writable again.  The move is
modelled from the spec (4.2): transferred, not duplicated. -/
def moveStalledToWritable (t : Transport) : Transport :=
  if 0 < t.outgoing_window then
    { t with writable := t.stalled_by_transport.foldl listAdd t.writable,
             stalled_by_transport := [] }
  else t

/-- Lines 218 to 226: announce unacknowledged incoming bytes with one
connection level window update and debit the counter. -/
def announceTransportWindow (t : Transport) : Transport :=
  if 0 < t.announce_incoming_window then
    let announced := min t.announce_incoming_window (2 ^ 32 - 1)
    { t with announce_incoming_window := t.announce_incoming_window - announced,
             outbuf := t.outbuf ++ [Frame.windowUpdate 0 announced] }
  else t

/-- Translation of grpc_chttp2_begin_write.  Returns the transport after
the pass and whether the output buffer is non empty (the boolean the C
function returns). -/
def grpc_chttp2_begin_write (t : Transport) : Transport × Bool :=
  let t1 := maybeSendSettings t
  let t2 := flushQbuf t1
  let t3 := moveStalledToWritable t2
  let t4 := writeLoop (loopFuel t3) t3
  let t5 := announceTransportWindow t4
  (t5, !t5.outbuf.isEmpty)

/-- Lines 239 to 257: finalize one stream popped from the writing list.
Closure completion and stream closing are modelled from the spec (4.5);
the callback list drain is the update_list translation above. -/
def end_write_one (t : Transport) (i : Nat) (error : Error) : Transport :=
  let s := t.streams i
  let t1 := if s.sent_initial_metadata then
      { t with completed := t.completed ++ [(CompletionTag.initialMetadataFinished i, error)] }
    else t
  let t2 := if (t1.streams i).sending_bytes ≠ 0 then
      let t' := update_list t1 i ((t1.streams i).sending_bytes : Int) error
      updStream t' i { t'.streams i with sending_bytes := 0 }
    else t1
  let t3 := if (t2.streams i).sent_trailing_metadata then
      let t' := { t2 with completed :=
        t2.completed ++ [(CompletionTag.trailingMetadataFinished i, error)] }
      updStream t' i { t'.streams i with write_closed := true }
    else t2
  let t4 := { t3 with writable := t3.writable.filter (fun j => j != i),
                      stalled_by_transport := t3.stalled_by_transport.filter (fun j => j != i),
                      writing := t3.writing.filter (fun j => j != i) }
  updStream t4 i { t4.streams i with refcount := (t4.streams i).refcount - 1 }

/-- Fuel indexed unfolding of the while loop over writing streams. -/
def endWriteLoop : Nat → Error → Transport → Transport
  | 0, _, t => t
  | fuel + 1, error, t =>
    match t.writing with
    | [] => t
    | i :: rest => endWriteLoop fuel error (end_write_one { t with writing := rest } i error)

/-- Translation of grpc_chttp2_end_write: drain the writing list, then
reset the output buffer. -/
def grpc_chttp2_end_write (t : Transport) (error : Error) : Transport :=
  let t1 := endWriteLoop t.writing.length error t
  { t1 with outbuf := [] }

/-- External events between passes: a begin_write pass, a connection
window credit, or a stream window credit (credits arrive from the read
path, out of scope of writing.c). -/
inductive WEvent where
  | beginWrite
  | creditTransport (n : Nat)
  | creditStream (i : Nat) (n : Nat)

/-- Apply one external event. -/
def applyEvent (t : Transport) : WEvent → Transport
  | WEvent.beginWrite => (grpc_chttp2_begin_write t).1
  | WEvent.creditTransport n => { t with outgoing_window := t.outgoing_window + n }
  | WEvent.creditStream i n =>
      updStream t i { t.streams i with outgoing_window := (t.streams i).outgoing_window + n }

/-- Run a sequence of external events. -/
def runEvents (t : Transport) (es : List WEvent) : Transport := es.foldl applyEvent t

/-- Total connection window credit granted by a sequence of events. -/
def transportCredits : List WEvent → Int
  | [] => 0
  | WEvent.creditTransport n :: es => n + transportCredits es
  | _ :: es => transportCredits es

/-- Total window credit granted to stream i by a sequence of events. -/
def streamCredits (i : Nat) : List WEvent → Int
  | [] => 0
  | WEvent.creditStream j n :: es => (if j = i then (n : Int) else 0) + streamCredits i es
  | _ :: es => streamCredits i es

/-- DATA payload bytes carried by one frame. -/
def frameDataBytes : Frame → Nat
  | Frame.data _ n _ => n
  | _ => 0

/-- Total DATA payload bytes in a frame list. -/
def dataBytes (fs : List Frame) : Nat := (fs.map frameDataBytes).sum

/-- DATA payload bytes carried by one frame for stream i. -/
def sFrameDataBytes (i : Nat) : Frame → Nat
  | Frame.data j n _ => if j = i then n else 0
  | _ => 0

/-- Total DATA payload bytes for stream i in a frame list. -/
def sDataBytes (i : Nat) (fs : List Frame) : Nat := (fs.map (sFrameDataBytes i)).sum

/-- Terminal frames for stream i: a DATA frame marked last, or a
trailing HEADERS frame. -/
def isTerminalFrame (i : Nat) : Frame → Bool
  | Frame.data j _ last => j == i && last
  | Frame.headers j tr => j == i && tr
  | _ => false

/-- Number of terminal frames for stream i in a frame list. -/
def countTerminal (i : Nat) (fs : List Frame) : Nat := (fs.filter (isTerminalFrame i)).length

/-- Body or trailer frames for stream i: any DATA frame, or a trailing
HEADERS frame. -/
def bodyFrame (i : Nat) : Frame → Bool
  | Frame.data j _ _ => j == i
  | Frame.headers j tr => j == i && tr
  | _ => false

/-- Initial metadata frame for stream i. -/
def initialHeadersFrame (i : Nat) : Frame → Bool
  | Frame.headers j tr => j == i && !tr
  | _ => false

/-- No body or trailer frame for stream i occurs in the list. -/
def noStreamBody (i : Nat) (fs : List Frame) : Prop := ∀ f ∈ fs, bodyFrame i f = false

/-- Scanning from the head, no body or trailer frame for stream i occurs
before the first initial metadata frame for stream i. -/
def imPrecedes (i : Nat) : List Frame → Prop
  | [] => True
  | f :: rest =>
    if initialHeadersFrame i f then True
    else bodyFrame i f = false ∧ imPrecedes i rest

/-- Stream with every counter zeroed, used to build concrete states. -/
def stream0 : Stream :=
  { outgoing_window := 0, announce_window := 0, flow_controlled_buffer := 0,
    sending_bytes := 0, flow_controlled_bytes_written := 0,
    sent_initial_metadata := false, sent_trailing_metadata := false,
    send_initial_metadata := none, send_trailing_metadata := none,
    fetching_send_message := false, on_write_finished_cbs := [],
    read_closed := false, write_closed := false, refcount := 0 }

/-- Quiet transport with no streams queued, used to build concrete
states. -/
def baseTransport : Transport :=
  { is_client := true, outgoing_window := 0, announce_incoming_window := 0,
    max_frame_size := 16384, dirtied_local_settings := false,
    sent_local_settings := true, force_send_settings := false,
    qbuf := [], outbuf := [], writable := [], stalled_by_transport := [],
    writing := [], streams := fun _ => stream0, write_cb_pool := [],
    completed := [] }

/-- Scenario 1 state: stream 1 has 100 buffered bytes, initial metadata
queued and unsent, an empty trailing metadata batch queued, both windows
at 1000, no more body expected. -/
def exC5 : Transport :=
  { baseTransport with
    outgoing_window := 1000,
    writable := [1],
    streams := fun j => if j = 1 then
      { stream0 with outgoing_window := 1000, flow_controlled_buffer := 100,
                     send_initial_metadata := some { isEmpty := false },
                     send_trailing_metadata := some { isEmpty := true },
                     refcount := 1 }
      else stream0 }

/-- Scenario 2 state: transport window 0, stream 1 has 10 buffered
bytes, initial metadata already sent, stream window 1000. -/
def exC6 : Transport :=
  { baseTransport with
    outgoing_window := 0,
    writable := [1],
    streams := fun j => if j = 1 then
      { stream0 with outgoing_window := 1000, flow_controlled_buffer := 10,
                     sent_initial_metadata := true, refcount := 1 }
      else stream0 }

/-- State for the C7 counterexample: stream 1 has only a pending window
update announcement (initial metadata already sent, nothing buffered, no
trailing metadata). -/
def exC7 : Transport :=
  { baseTransport with
    outgoing_window := 1000,
    writable := [1],
    streams := fun j => if j = 1 then
      { stream0 with outgoing_window := 1000, announce_window := 5,
                     sent_initial_metadata := true, refcount := 1 }
      else stream0 }

/-- State for the C8 counterexample: stream 1 holds 10 buffered bytes
while max frame size 4 permits only 4 per frame; both windows are ample
and more body is expected. -/
def exC8 : Transport :=
  { baseTransport with
    outgoing_window := 1000,
    max_frame_size := 4,
    writable := [1],
    streams := fun j => if j = 1 then
      { stream0 with outgoing_window := 1000, flow_controlled_buffer := 10,
                     sent_initial_metadata := true, fetching_send_message := true,
                     refcount := 1 }
      else stream0 }

/-- Scenario 3 state: stream 1 has two pending write completion
callbacks, registered at byte thresholds 5 and 20, with no bytes
confirmed yet. -/
def exC4 : Transport :=
  { baseTransport with
    streams := fun j => if j = 1 then
      { stream0 with on_write_finished_cbs :=
          [{ call_at_byte := 5, cbId := 100 }, { call_at_byte := 20, cbId := 200 }] }
      else stream0 }

/-- Accounting relation carried through every step of a write pass for
claim C1: the connection window plus all DATA payload bytes sitting in
the output and queued buffers is preserved (each sent byte is debited
exactly once), likewise per stream, the max frame size is untouched, and
nonnegative windows stay nonnegative. -/
def ledgerStep (t t' : Transport) : Prop :=
  (t'.outgoing_window + (dataBytes t'.outbuf : Int) + (dataBytes t'.qbuf : Int)
      = t.outgoing_window + (dataBytes t.outbuf : Int) + (dataBytes t.qbuf : Int))
  ∧ (∀ j, (t'.streams j).outgoing_window
        + (sDataBytes j t'.outbuf : Int) + (sDataBytes j t'.qbuf : Int)
      = (t.streams j).outgoing_window
        + (sDataBytes j t.outbuf : Int) + (sDataBytes j t.qbuf : Int))
  ∧ t'.max_frame_size = t.max_frame_size
  ∧ (t.max_frame_size < 2 ^ 32 → 0 ≤ t.outgoing_window →
      (∀ j, 0 ≤ (t.streams j).outgoing_window) →
      0 ≤ t'.outgoing_window ∧ ∀ j, 0 ≤ (t'.streams j).outgoing_window)

/-- Frame lists whose every frame concerns stream ip alone: for every
other stream k they contain no body, initial metadata or terminal
frame.  Used to transfer per-stream invariants across iterations that
process a different stream. -/
def onlyStream (ip : Nat) (gs : List Frame) : Prop :=
  ∀ f ∈ gs, ∀ k, k ≠ ip →
    bodyFrame k f = false ∧ initialHeadersFrame k f = false ∧ isTerminalFrame k f = false

/-- Invariant carried for claim C2 on stream i: the control queue is
flushed, a stream that has not sent initial metadata has no body or
trailer frame in the output, and once the flag is set an initial
metadata frame is present and precedes every body frame. -/
def C2Inv (i : Nat) (t : Transport) : Prop :=
  t.qbuf = []
  ∧ ((t.streams i).sent_initial_metadata = false → noStreamBody i t.outbuf)
  ∧ ((t.streams i).sent_initial_metadata = true →
      (∃ f ∈ t.outbuf, initialHeadersFrame i f = true) ∧ imPrecedes i t.outbuf)

/-- Invariant carried for claim C3 on stream i: the control queue is
flushed and once the terminal flag is set the trailing metadata batch
has been consumed, so neither emission site can fire again. -/
def C3Good (i : Nat) (t : Transport) : Prop :=
  t.qbuf = []
  ∧ ((t.streams i).sent_trailing_metadata = true →
      (t.streams i).send_trailing_metadata = none)

/-- One step of the C3 argument: assuming the invariant, it is
preserved, the terminal flag is monotone, and the number of terminal
frames for stream i grows by one exactly when the flag flips. -/
def C3Step (i : Nat) (t t' : Transport) : Prop :=
  C3Good i t →
    C3Good i t'
    ∧ ((t.streams i).sent_trailing_metadata = true →
        (t'.streams i).sent_trailing_metadata = true)
    ∧ countTerminal i t'.outbuf
        = countTerminal i t.outbuf
          + (if (t'.streams i).sent_trailing_metadata = true
                ∧ (t.streams i).sent_trailing_metadata = false then 1 else 0)

@[simp] theorem updStream_streams (t : Transport) (i j : Nat) (s : Stream) :
    (updStream t i s).streams j = if j = i then s else t.streams j := rfl

@[simp] theorem updStream_outbuf (t : Transport) (i : Nat) (s : Stream) :
    (updStream t i s).outbuf = t.outbuf := rfl

@[simp] theorem updStream_qbuf (t : Transport) (i : Nat) (s : Stream) :
    (updStream t i s).qbuf = t.qbuf := rfl

@[simp] theorem updStream_outgoing_window (t : Transport) (i : Nat) (s : Stream) :
    (updStream t i s).outgoing_window = t.outgoing_window := rfl

@[simp] theorem updStream_writable (t : Transport) (i : Nat) (s : Stream) :
    (updStream t i s).writable = t.writable := rfl

@[simp] theorem updStream_stalled (t : Transport) (i : Nat) (s : Stream) :
    (updStream t i s).stalled_by_transport = t.stalled_by_transport := rfl

@[simp] theorem updStream_writing (t : Transport) (i : Nat) (s : Stream) :
    (updStream t i s).writing = t.writing := rfl

@[simp] theorem updStream_max_frame_size (t : Transport) (i : Nat) (s : Stream) :
    (updStream t i s).max_frame_size = t.max_frame_size := rfl

@[simp] theorem updStream_is_client (t : Transport) (i : Nat) (s : Stream) :
    (updStream t i s).is_client = t.is_client := rfl

@[simp] theorem updStream_completed (t : Transport) (i : Nat) (s : Stream) :
    (updStream t i s).completed = t.completed := rfl

@[simp] theorem updStream_pool (t : Transport) (i : Nat) (s : Stream) :
    (updStream t i s).write_cb_pool = t.write_cb_pool := rfl

theorem mem_listAdd_self (l : List Nat) (i : Nat) : i ∈ listAdd l i := by
  by_cases h : i ∈ l <;> simp [listAdd, h]

@[simp] theorem finish_write_cb_streams (t : Transport) (cb : WriteCb) (e : Error) :
    (finish_write_cb t cb e).streams = t.streams := rfl

@[simp] theorem finish_write_cb_completed (t : Transport) (cb : WriteCb) (e : Error) :
    (finish_write_cb t cb e).completed
      = t.completed ++ [(CompletionTag.writeCb cb.cbId, e)] := rfl

@[simp] theorem finish_write_cb_pool (t : Transport) (cb : WriteCb) (e : Error) :
    (finish_write_cb t cb e).write_cb_pool = cb :: t.write_cb_pool := rfl

theorem update_list_loop_char (i : Nat) (err : Error) (cbs : List WriteCb) :
    ∀ (t : Transport) (w : Int), (t.streams i).flow_controlled_bytes_written = w →
      ((update_list_loop i err t cbs).streams i).on_write_finished_cbs
          = (cbs.filter (fun cb => !decide (cb.call_at_byte ≤ w))).reverse
              ++ (t.streams i).on_write_finished_cbs
        ∧ (update_list_loop i err t cbs).completed
          = t.completed ++ (cbs.filter (fun cb => decide (cb.call_at_byte ≤ w))).map
              (fun cb => (CompletionTag.writeCb cb.cbId, err))
        ∧ (update_list_loop i err t cbs).write_cb_pool
          = (cbs.filter (fun cb => decide (cb.call_at_byte ≤ w))).reverse ++ t.write_cb_pool
        ∧ ((update_list_loop i err t cbs).streams i).flow_controlled_bytes_written = w := by
  induction cbs with
  | nil => intro t w hw; simpa [update_list_loop] using hw
  | cons cb next ih =>
    intro t w hw
    by_cases hle : cb.call_at_byte ≤ w
    · obtain ⟨ha, hb, hc, hd⟩ := ih (finish_write_cb t cb err) w (by simp [hw])
      rw [update_list_loop, hw, if_pos hle]
      refine ⟨?_, ?_, ?_, hd⟩
      · rw [ha]; simp [hle]
      · rw [hb]; simp [hle]
      · rw [hc]; simp [hle]
    · obtain ⟨ha, hb, hc, hd⟩ := ih (updStream t i { t.streams i with
          on_write_finished_cbs := cb :: (t.streams i).on_write_finished_cbs }) w
          (by simp [hw])
      rw [update_list_loop, hw, if_neg hle]
      refine ⟨?_, ?_, ?_, hd⟩
      · rw [ha]; simp [hle]
      · rw [hb]; simp [hle]
      · rw [hc]; simp [hle]

/-- Characterization of update_list: the confirmed total advances by
the sent bytes; fired callbacks (threshold at or below the new total)
are appended to the completion log in traversal order and pushed onto
the free pool; kept callbacks form the reversed filter of the rest. -/
theorem update_list_char (t : Transport) (i : Nat) (send_bytes : Int) (err : Error) :
    ((update_list t i send_bytes err).streams i).flow_controlled_bytes_written
        = (t.streams i).flow_controlled_bytes_written + send_bytes
      ∧ ((update_list t i send_bytes err).streams i).on_write_finished_cbs
        = ((t.streams i).on_write_finished_cbs.filter
            (fun cb => !decide (cb.call_at_byte
              ≤ (t.streams i).flow_controlled_bytes_written + send_bytes))).reverse
      ∧ (update_list t i send_bytes err).completed
        = t.completed ++ ((t.streams i).on_write_finished_cbs.filter
            (fun cb => decide (cb.call_at_byte
              ≤ (t.streams i).flow_controlled_bytes_written + send_bytes))).map
            (fun cb => (CompletionTag.writeCb cb.cbId, err))
      ∧ (update_list t i send_bytes err).write_cb_pool
        = ((t.streams i).on_write_finished_cbs.filter
            (fun cb => decide (cb.call_at_byte
              ≤ (t.streams i).flow_controlled_bytes_written + send_bytes))).reverse
          ++ t.write_cb_pool := by
  obtain ⟨ha, hb, hc, hd⟩ := update_list_loop_char i err (t.streams i).on_write_finished_cbs
    (updStream t i { t.streams i with
      flow_controlled_bytes_written :=
        (t.streams i).flow_controlled_bytes_written + send_bytes,
      on_write_finished_cbs := [] })
    ((t.streams i).flow_controlled_bytes_written + send_bytes) (by simp)
  exact ⟨hd, by simpa using ha, by simpa using hb, by simpa using hc⟩

/-- C4: draining the callback list after advancing the confirmed byte
total fires exactly the entries at or below the new total, each exactly
once with the pass outcome, returning them to the free pool; all other
entries are kept (order reversed, which callers do not rely on) and any
kept entry fires on the first later drain whose total reaches its
threshold. -/
theorem C4_callback_drain (t : Transport) (i : Nat) (send_bytes : Int) (err : Error) :
    ((update_list t i send_bytes err).streams i).flow_controlled_bytes_written
        = (t.streams i).flow_controlled_bytes_written + send_bytes
      ∧ ((update_list t i send_bytes err).streams i).on_write_finished_cbs
        = ((t.streams i).on_write_finished_cbs.filter
            (fun cb => !decide (cb.call_at_byte
              ≤ (t.streams i).flow_controlled_bytes_written + send_bytes))).reverse
      ∧ (update_list t i send_bytes err).completed
        = t.completed ++ ((t.streams i).on_write_finished_cbs.filter
            (fun cb => decide (cb.call_at_byte
              ≤ (t.streams i).flow_controlled_bytes_written + send_bytes))).map
            (fun cb => (CompletionTag.writeCb cb.cbId, err))
      ∧ (update_list t i send_bytes err).write_cb_pool
        = ((t.streams i).on_write_finished_cbs.filter
            (fun cb => decide (cb.call_at_byte
              ≤ (t.streams i).flow_controlled_bytes_written + send_bytes))).reverse
          ++ t.write_cb_pool
      ∧ ∀ cb ∈ ((update_list t i send_bytes err).streams i).on_write_finished_cbs,
          (t.streams i).flow_controlled_bytes_written + send_bytes < cb.call_at_byte
          ∧ ∀ (send2 : Int) (err2 : Error),
              cb.call_at_byte
                  ≤ (t.streams i).flow_controlled_bytes_written + send_bytes + send2 →
              (CompletionTag.writeCb cb.cbId, err2)
                ∈ (update_list (update_list t i send_bytes err) i send2 err2).completed := by
  obtain ⟨h1, h2, h3, h4⟩ := update_list_char t i send_bytes err
  refine ⟨h1, h2, h3, h4, ?_⟩
  intro cb hcb
  have hgt : (t.streams i).flow_controlled_bytes_written + send_bytes < cb.call_at_byte := by
    rw [h2] at hcb
    have hfilt := List.mem_filter.mp (List.mem_reverse.mp hcb)
    have := hfilt.2
    rw [Bool.not_eq_true', decide_eq_false_iff_not] at this
    omega
  refine ⟨hgt, ?_⟩
  intro send2 err2 hle2
  obtain ⟨g1, g2, g3, g4⟩ := update_list_char (update_list t i send_bytes err) i send2 err2
  rw [g3]
  refine List.mem_append.mpr (Or.inr ?_)
  refine List.mem_map.mpr ⟨cb, ?_, rfl⟩
  refine List.mem_filter.mpr ⟨hcb, ?_⟩
  rw [h1]
  simpa using hle2

/-- C5: from the scenario 1 state (100 buffered body bytes, initial
metadata queued but unsent, stream window 1000, transport window 1000,
max frame size 16384, no more body expected, trailing metadata batch
queued empty), one begin_write call emits exactly one HEADERS frame
followed by one DATA frame of 100 bytes marked last, and
sent_trailing_metadata becomes true. -/
theorem C5_scenario_one :
    (grpc_chttp2_begin_write exC5).1.outbuf
        = [Frame.headers 1 false, Frame.data 1 100 true]
      ∧ ((grpc_chttp2_begin_write exC5).1.streams 1).sent_trailing_metadata = true
      ∧ (grpc_chttp2_begin_write exC5).2 = true := by decide

/-- C6 counterexample: in the scenario 2 state the pass emits no frame
at all for the stream (so in particular no DATA frame) and the stream
does end on the stalled-by-transport queue, but, contrary to the claim,
it is also placed on the writing list, because the stall branch sets
now_writing. -/
theorem C6_counterexample_on_writing_list :
    0 < (exC6.streams 1).flow_controlled_buffer
      ∧ exC6.outgoing_window = 0
      ∧ 0 < (exC6.streams 1).outgoing_window
      ∧ (grpc_chttp2_begin_write exC6).1.outbuf = []
      ∧ (grpc_chttp2_begin_write exC6).1.stalled_by_transport = [1]
      ∧ (grpc_chttp2_begin_write exC6).1.writing = [1] := by decide

/-- C10: in the scenario 2 state begin_write returns false (the output
buffer is empty, so the caller may skip I/O) while stream 1 has
nevertheless been placed on the writing list during the pass; the
reference is released only when the driver still runs end_write, which
also removes the stream from the stalled queue. -/
theorem C10_false_return_with_writing_stream :
    (grpc_chttp2_begin_write exC6).2 = false
      ∧ (grpc_chttp2_begin_write exC6).1.outbuf = []
      ∧ (grpc_chttp2_begin_write exC6).1.writing = [1]
      ∧ ((grpc_chttp2_begin_write exC6).1.streams 1).refcount = 1
      ∧ (grpc_chttp2_end_write (grpc_chttp2_begin_write exC6).1 Error.ok).writing = []
      ∧ ((grpc_chttp2_end_write (grpc_chttp2_begin_write exC6).1 Error.ok).streams 1).refcount
          = 0 := by decide

/-- C7 counterexample: an emission does happen for stream 1 in its
iteration (a stream window update frame), yet the stream is not moved
onto the writing list: its reference is released and it leaves all
lists, because the window update site does not set now_writing. -/
theorem C7_counterexample_window_update_released :
    (grpc_chttp2_begin_write exC7).1.outbuf = [Frame.windowUpdate 1 5]
      ∧ (grpc_chttp2_begin_write exC7).1.writing = []
      ∧ (grpc_chttp2_begin_write exC7).1.writable = []
      ∧ (grpc_chttp2_begin_write exC7).1.stalled_by_transport = []
      ∧ ((grpc_chttp2_begin_write exC7).1.streams 1).refcount = 0 := by decide

/-- C8 counterexample: stream 1 buffers more bytes (10) than
min(windows, max frame size) = 4 permits in one frame, yet after one
begin_write call it is on neither the writable nor the stalled set: the
fork re-enters the same pass loop, which drains the buffer completely
(three DATA frames) and leaves the stream only on the writing list. -/
theorem C8_counterexample_full_drain :
    max_outgoing exC8 (exC8.streams 1) = 4
      ∧ 4 < (exC8.streams 1).flow_controlled_buffer
      ∧ (grpc_chttp2_begin_write exC8).1.writable = []
      ∧ (grpc_chttp2_begin_write exC8).1.stalled_by_transport = []
      ∧ (grpc_chttp2_begin_write exC8).1.writing = [1]
      ∧ ((grpc_chttp2_begin_write exC8).1.streams 1).flow_controlled_buffer = 0
      ∧ (grpc_chttp2_begin_write exC8).1.outbuf
          = [Frame.data 1 4 false, Frame.data 1 4 false, Frame.data 1 2 false] := by decide

@[simp] theorem dataBytes_nil : dataBytes [] = 0 := rfl

@[simp] theorem dataBytes_append (xs ys : List Frame) :
    dataBytes (xs ++ ys) = dataBytes xs + dataBytes ys := by
  simp [dataBytes]

@[simp] theorem dataBytes_singleton (f : Frame) : dataBytes [f] = frameDataBytes f := by
  simp [dataBytes]

@[simp] theorem dataBytes_cons (f : Frame) (fs : List Frame) :
    dataBytes (f :: fs) = frameDataBytes f + dataBytes fs := by
  simp [dataBytes]

@[simp] theorem sDataBytes_cons (i : Nat) (f : Frame) (fs : List Frame) :
    sDataBytes i (f :: fs) = sFrameDataBytes i f + sDataBytes i fs := by
  simp [sDataBytes]

@[simp] theorem sDataBytes_nil (i : Nat) : sDataBytes i [] = 0 := rfl

@[simp] theorem sDataBytes_append (i : Nat) (xs ys : List Frame) :
    sDataBytes i (xs ++ ys) = sDataBytes i xs + sDataBytes i ys := by
  simp [sDataBytes]

@[simp] theorem sDataBytes_singleton (i : Nat) (f : Frame) :
    sDataBytes i [f] = sFrameDataBytes i f := by
  simp [sDataBytes]

theorem u32ofI64_eq (x : Int) (h0 : 0 ≤ x) (h1 : x < 2 ^ 32) : (u32ofI64 x : Int) = x := by
  unfold u32ofI64
  rw [Int.emod_eq_of_lt h0 h1, Int.toNat_of_nonneg h0]

theorem max_outgoing_le (t : Transport) (s : Stream)
    (hm : t.max_frame_size < 2 ^ 32)
    (hw : 0 ≤ t.outgoing_window) (hs : 0 ≤ s.outgoing_window) :
    (max_outgoing t s : Int) ≤ s.outgoing_window
      ∧ (max_outgoing t s : Int) ≤ t.outgoing_window := by
  unfold max_outgoing
  have h0 : 0 ≤ min (t.max_frame_size : Int) (min s.outgoing_window t.outgoing_window) :=
    le_min (by positivity) (le_min hs hw)
  have h1 : min (t.max_frame_size : Int) (min s.outgoing_window t.outgoing_window) < 2 ^ 32 :=
    lt_of_le_of_lt (min_le_left _ _) (by exact_mod_cast hm)
  rw [u32ofI64_eq _ h0 h1]
  exact ⟨le_trans (min_le_right _ _) (min_le_left _ _),
         le_trans (min_le_right _ _) (min_le_right _ _)⟩

theorem ledgerStep_refl (t : Transport) : ledgerStep t t :=
  ⟨rfl, fun _ => rfl, rfl, fun _ h hs => ⟨h, hs⟩⟩

theorem ledgerStep_trans {t1 t2 t3 : Transport}
    (h12 : ledgerStep t1 t2) (h23 : ledgerStep t2 t3) : ledgerStep t1 t3 := by
  obtain ⟨a1, b1, c1, d1⟩ := h12
  obtain ⟨a2, b2, c2, d2⟩ := h23
  refine ⟨by omega, fun j => by have q1 := b1 j; have q2 := b2 j; omega, c2.trans c1, ?_⟩
  intro hm hw hs
  obtain ⟨hw2, hs2⟩ := d1 hm hw hs
  exact d2 (by rw [c1]; exact hm) hw2 hs2

theorem ledgerStep_of_same {t t' : Transport}
    (hw : t'.outgoing_window = t.outgoing_window)
    (hs : ∀ j, (t'.streams j).outgoing_window = (t.streams j).outgoing_window)
    (hd : (dataBytes t'.outbuf : Int) + dataBytes t'.qbuf
        = dataBytes t.outbuf + dataBytes t.qbuf)
    (hsd : ∀ j, (sDataBytes j t'.outbuf : Int) + sDataBytes j t'.qbuf
        = sDataBytes j t.outbuf + sDataBytes j t.qbuf)
    (hm : t'.max_frame_size = t.max_frame_size) : ledgerStep t t' := by
  refine ⟨by omega, fun j => by have q1 := hsd j; have q2 := hs j; omega, hm, ?_⟩
  intro _ h1 h2
  exact ⟨by rw [hw]; exact h1, fun j => by rw [hs j]; exact h2 j⟩

theorem phaseInitialMetadata_ledger (t : Transport) (i : Nat) :
    ledgerStep t (phaseInitialMetadata t i).1 := by
  unfold phaseInitialMetadata
  dsimp only
  split
  · apply ledgerStep_of_same
    · simp
    · intro j; by_cases h : j = i <;> simp [h]
    · simp [frameDataBytes]
    · intro j; simp [sFrameDataBytes]
    · simp
  · exact ledgerStep_refl t

theorem phaseAnnounce_ledger (t : Transport) (i : Nat) :
    ledgerStep t (phaseAnnounce t i).1 := by
  unfold phaseAnnounce
  dsimp only
  split
  · apply ledgerStep_of_same
    · simp
    · intro j; by_cases h : j = i <;> simp [h]
    · simp [frameDataBytes]
    · intro j; simp [sFrameDataBytes]
    · simp
  · exact ledgerStep_refl t

theorem phaseTrailing_ledger (t : Transport) (i : Nat) :
    ledgerStep t (phaseTrailing t i).1 := by
  unfold phaseTrailing
  dsimp only
  split
  · exact ledgerStep_refl t
  · split
    · apply ledgerStep_of_same
      · split <;> split <;> simp
      · intro j
        split <;> split <;> by_cases h : j = i <;> simp [h]
      · split <;> split <;> simp [frameDataBytes]
      · intro j
        split <;> split <;> simp [sFrameDataBytes, frameDataBytes]
      · split <;> split <;> simp
    · exact ledgerStep_refl t

theorem phaseFinish_ledger (t : Transport) (i : Nat) (nw : Bool) :
    ledgerStep t (phaseFinish t i nw) := by
  unfold phaseFinish
  dsimp only
  split
  · split
    · apply ledgerStep_of_same
      · simp
      · intro j; by_cases h : j = i <;> simp [h]
      · simp
      · intro j; simp
      · simp
    · exact ledgerStep_of_same rfl (fun _ => rfl) rfl (fun _ => rfl) rfl
  · apply ledgerStep_of_same
    · simp
    · intro j; by_cases h : j = i <;> simp [h]
    · simp
    · intro j; simp
    · simp

set_option maxHeartbeats 1000000 in
theorem phaseData_ledger (t : Transport) (i : Nat) :
    ledgerStep t (phaseData t i).1 := by
  unfold phaseData
  dsimp only
  split
  case isFalse => exact ledgerStep_refl t
  case isTrue hbuf =>
    split
    case isFalse =>
      split
      · exact ledgerStep_of_same rfl (fun _ => rfl) rfl (fun _ => rfl) rfl
      · exact ledgerStep_refl t
    case isTrue hmo =>
      refine ⟨?_, ?_, ?_, ?_⟩
      · split_ifs <;> simp [frameDataBytes] <;> push_cast <;> omega
      · intro j
        by_cases h : j = i <;>
          split_ifs <;> simp [h, sFrameDataBytes, frameDataBytes] <;> push_cast <;> omega
      · split_ifs <;> simp
      · intro hm hw hs
        obtain ⟨hle1, hle2⟩ := max_outgoing_le t (t.streams i) hm hw (hs i)
        have hsi := hs i
        constructor
        · split_ifs <;> simp <;> push_cast <;> omega
        · intro j
          by_cases h : j = i
          · split_ifs <;> simp [h] <;> push_cast <;> omega
          · have hj := hs j
            split_ifs <;> simp [h] <;> omega

theorem processIter_ledger (t : Transport) (i : Nat) : ledgerStep t (processIter t i).t := by
  have l1 := phaseInitialMetadata_ledger t i
  have l2 := phaseAnnounce_ledger (phaseInitialMetadata t i).1 i
  have l3 := phaseData_ledger (phaseAnnounce (phaseInitialMetadata t i).1 i).1 i
  have l4 := phaseTrailing_ledger
    (phaseData (phaseAnnounce (phaseInitialMetadata t i).1 i).1 i).1 i
  unfold processIter
  dsimp only
  split
  · exact ledgerStep_trans (ledgerStep_trans (ledgerStep_trans l1 l2) l3) l4
  · exact ledgerStep_trans l1 l2

theorem processOne_ledger (t : Transport) (i : Nat) : ledgerStep t (processOne t i) :=
  ledgerStep_trans (processIter_ledger t i)
    (phaseFinish_ledger (processIter t i).t i (processIter t i).now_writing)

theorem ledgerStep_set_writable (t : Transport) (l : List Nat) :
    ledgerStep t { t with writable := l } :=
  ledgerStep_of_same rfl (fun _ => rfl) rfl (fun _ => rfl) rfl

theorem writeLoop_ledger (fuel : Nat) : ∀ t : Transport, ledgerStep t (writeLoop fuel t) := by
  induction fuel with
  | zero => intro t; exact ledgerStep_refl t
  | succ fuel ih =>
    intro t
    unfold writeLoop
    split
    · exact ledgerStep_refl t
    case h_2 i rest heq =>
      exact ledgerStep_trans
        (ledgerStep_trans (ledgerStep_set_writable t rest)
          (processOne_ledger { t with writable := rest } i))
        (ih (processOne { t with writable := rest } i))

theorem maybeSendSettings_ledger (t : Transport) : ledgerStep t (maybeSendSettings t) := by
  unfold maybeSendSettings
  split
  · apply ledgerStep_of_same
    · simp
    · intro j; simp
    · simp [frameDataBytes]
    · intro j; simp [sFrameDataBytes]
    · simp
  · exact ledgerStep_refl t

theorem flushQbuf_ledger (t : Transport) : ledgerStep t (flushQbuf t) := by
  apply ledgerStep_of_same
  · simp [flushQbuf]
  · intro j; simp [flushQbuf]
  · simp [flushQbuf]
  · intro j; simp [flushQbuf]
  · simp [flushQbuf]

theorem moveStalledToWritable_ledger (t : Transport) :
    ledgerStep t (moveStalledToWritable t) := by
  unfold moveStalledToWritable
  split
  · exact ledgerStep_of_same rfl (fun _ => rfl) rfl (fun _ => rfl) rfl
  · exact ledgerStep_refl t

theorem announceTransportWindow_ledger (t : Transport) :
    ledgerStep t (announceTransportWindow t) := by
  unfold announceTransportWindow
  dsimp only
  split
  · apply ledgerStep_of_same
    · simp
    · intro j; simp
    · simp [frameDataBytes]
    · intro j; simp [sFrameDataBytes]
    · simp
  · exact ledgerStep_refl t

theorem begin_write_ledger (t : Transport) : ledgerStep t (grpc_chttp2_begin_write t).1 := by
  unfold grpc_chttp2_begin_write
  dsimp only
  exact ledgerStep_trans (ledgerStep_trans (ledgerStep_trans (ledgerStep_trans
    (maybeSendSettings_ledger t) (flushQbuf_ledger _)) (moveStalledToWritable_ledger _))
    (writeLoop_ledger _ _)) (announceTransportWindow_ledger _)

/-- C1: after any sequence of begin_write passes interleaved with
nonnegative window credits, starting from nonnegative windows, both the
stream and the transport outgoing windows remain nonnegative, and each
is debited exactly once per DATA payload byte placed in the output
buffer: window plus emitted DATA bytes is conserved up to the granted
credits, at the connection level and per stream. -/
theorem C1_flow_control (t0 : Transport) (es : List WEvent)
    (hmf : t0.max_frame_size < 2 ^ 32)
    (ht : 0 ≤ t0.outgoing_window)
    (hs : ∀ j, 0 ≤ (t0.streams j).outgoing_window) :
    (0 ≤ (runEvents t0 es).outgoing_window
        ∧ ∀ j, 0 ≤ ((runEvents t0 es).streams j).outgoing_window)
      ∧ ((runEvents t0 es).outgoing_window + (dataBytes (runEvents t0 es).outbuf : Int)
            + (dataBytes (runEvents t0 es).qbuf : Int)
          = t0.outgoing_window + (dataBytes t0.outbuf : Int) + (dataBytes t0.qbuf : Int)
            + transportCredits es)
      ∧ ∀ j, ((runEvents t0 es).streams j).outgoing_window
            + (sDataBytes j (runEvents t0 es).outbuf : Int)
            + (sDataBytes j (runEvents t0 es).qbuf : Int)
          = (t0.streams j).outgoing_window + (sDataBytes j t0.outbuf : Int)
            + (sDataBytes j t0.qbuf : Int) + streamCredits j es := by
  induction es generalizing t0 with
  | nil =>
    refine ⟨⟨ht, hs⟩, by simp [runEvents, transportCredits], ?_⟩
    intro j
    simp [runEvents, streamCredits]
  | cons e rest ih =>
    have hrun : runEvents t0 (e :: rest) = runEvents (applyEvent t0 e) rest := rfl
    cases e with
    | beginWrite =>
      have hae : applyEvent t0 WEvent.beginWrite = (grpc_chttp2_begin_write t0).1 := rfl
      obtain ⟨lw, lsj, lmf, lnn⟩ := begin_write_ledger t0
      obtain ⟨h0, h0s⟩ := lnn hmf ht hs
      obtain ⟨⟨a1, a2⟩, a3, a4⟩ := ih (applyEvent t0 WEvent.beginWrite)
        (by simpa [applyEvent, lmf] using hmf) (by rw [hae]; exact h0)
        (by rw [hae]; exact h0s)
      rw [hae] at a3 a4
      rw [hrun, hae]
      refine ⟨⟨a1, a2⟩, ?_, ?_⟩
      · have hc : transportCredits (WEvent.beginWrite :: rest) = transportCredits rest := by
          simp [transportCredits]
        rw [hc]
        omega
      · intro j
        have hc : streamCredits j (WEvent.beginWrite :: rest) = streamCredits j rest := by
          simp [streamCredits]
        rw [hc]
        have q1 := a4 j
        have q2 := lsj j
        omega
    | creditTransport n =>
      have p1 : (applyEvent t0 (WEvent.creditTransport n)).outgoing_window
          = t0.outgoing_window + n := rfl
      have p2 : (applyEvent t0 (WEvent.creditTransport n)).outbuf = t0.outbuf := rfl
      have p3 : (applyEvent t0 (WEvent.creditTransport n)).qbuf = t0.qbuf := rfl
      have p4 : (applyEvent t0 (WEvent.creditTransport n)).max_frame_size
          = t0.max_frame_size := rfl
      have p5 : ∀ j, (applyEvent t0 (WEvent.creditTransport n)).streams j
          = t0.streams j := fun _ => rfl
      obtain ⟨⟨a1, a2⟩, a3, a4⟩ := ih (applyEvent t0 (WEvent.creditTransport n))
        (by rw [p4]; exact hmf) (by rw [p1]; omega)
        (fun j => by rw [p5 j]; exact hs j)
      rw [hrun]
      refine ⟨⟨a1, a2⟩, ?_, ?_⟩
      · simp only [transportCredits]
        rw [p1, p2, p3] at a3
        omega
      · intro j
        simp only [streamCredits]
        have q1 := a4 j
        rw [p2, p3] at q1
        have q5 : ((applyEvent t0 (WEvent.creditTransport n)).streams j).outgoing_window
            = (t0.streams j).outgoing_window := by rw [p5 j]
        omega
    | creditStream k n =>
      have p1 : (applyEvent t0 (WEvent.creditStream k n)).outgoing_window
          = t0.outgoing_window := rfl
      have p2 : (applyEvent t0 (WEvent.creditStream k n)).outbuf = t0.outbuf := rfl
      have p3 : (applyEvent t0 (WEvent.creditStream k n)).qbuf = t0.qbuf := rfl
      have p4 : (applyEvent t0 (WEvent.creditStream k n)).max_frame_size
          = t0.max_frame_size := rfl
      have p5 : ∀ j, ((applyEvent t0 (WEvent.creditStream k n)).streams j).outgoing_window
          = (t0.streams j).outgoing_window + (if j = k then (n : Int) else 0) := by
        intro j
        by_cases h : j = k
        · simp [applyEvent, updStream, h]
        · simp [applyEvent, updStream, h]
      obtain ⟨⟨a1, a2⟩, a3, a4⟩ := ih (applyEvent t0 (WEvent.creditStream k n))
        (by rw [p4]; exact hmf) (by rw [p1]; exact ht)
        (fun j => by
          rw [p5 j]
          have := hs j
          by_cases h : j = k
          · rw [if_pos h]; omega
          · rw [if_neg h]; omega)
      rw [hrun]
      refine ⟨⟨a1, a2⟩, ?_, ?_⟩
      · simp only [transportCredits]
        rw [p1, p2, p3] at a3
        omega
      · intro j
        simp only [streamCredits]
        have q1 := a4 j
        rw [p2, p3] at q1
        have q5 := p5 j
        by_cases h : j = k
        · rw [if_pos h] at q5
          rw [if_pos h.symm]
          omega
        · rw [if_neg h] at q5
          rw [if_neg (fun hh => h hh.symm)]
          omega

theorem C1_flow_control_witness :
    0 ≤ (runEvents exC5 [WEvent.creditTransport 7, WEvent.beginWrite]).outgoing_window
      ∧ ((runEvents exC5 [WEvent.creditTransport 7,
            WEvent.beginWrite]).streams 1).outgoing_window
          + (sDataBytes 1 (runEvents exC5 [WEvent.creditTransport 7,
              WEvent.beginWrite]).outbuf : Int)
          + (sDataBytes 1 (runEvents exC5 [WEvent.creditTransport 7,
              WEvent.beginWrite]).qbuf : Int)
        = (exC5.streams 1).outgoing_window + (sDataBytes 1 exC5.outbuf : Int)
          + (sDataBytes 1 exC5.qbuf : Int)
          + streamCredits 1 [WEvent.creditTransport 7, WEvent.beginWrite] := by
  have h := C1_flow_control exC5 [WEvent.creditTransport 7, WEvent.beginWrite]
    (by decide) (by decide)
    (fun j => by by_cases hj : j = 1 <;> simp [exC5, baseTransport, stream0, hj])
  exact ⟨h.1.1, h.2.2 1⟩

theorem noStreamBody_append {i : Nat} {fs gs : List Frame}
    (h1 : noStreamBody i fs) (h2 : noStreamBody i gs) : noStreamBody i (fs ++ gs) := by
  intro f hf
  rcases List.mem_append.mp hf with h | h
  · exact h1 f h
  · exact h2 f h

theorem noStreamBody_imPrecedes {i : Nat} {fs : List Frame}
    (h : noStreamBody i fs) : imPrecedes i fs := by
  induction fs with
  | nil => trivial
  | cons f rest ih =>
    unfold imPrecedes
    split
    · trivial
    · exact ⟨h f (by simp), ih (fun g hg => h g (by simp [hg]))⟩

theorem imPrecedes_append_contains {i : Nat} {fs : List Frame} (gs : List Frame)
    (h : imPrecedes i fs) (hc : ∃ f ∈ fs, initialHeadersFrame i f = true) :
    imPrecedes i (fs ++ gs) := by
  induction fs with
  | nil => simp at hc
  | cons f rest ih =>
    obtain ⟨g, hg, hgi⟩ := hc
    rw [List.cons_append]
    unfold imPrecedes at h ⊢
    by_cases hf : initialHeadersFrame i f = true
    · rw [if_pos hf]
      trivial
    · rw [if_neg hf] at h ⊢
      rcases List.mem_cons.mp hg with rfl | hg'
      · exact absurd hgi hf
      · exact ⟨h.1, ih h.2 ⟨g, hg', hgi⟩⟩

theorem imPrecedes_append_clean {i : Nat} {fs gs : List Frame}
    (h : imPrecedes i fs) (hg : noStreamBody i gs) : imPrecedes i (fs ++ gs) := by
  induction fs with
  | nil => simpa using noStreamBody_imPrecedes hg
  | cons f rest ih =>
    rw [List.cons_append]
    unfold imPrecedes at h ⊢
    by_cases hf : initialHeadersFrame i f = true
    · rw [if_pos hf]
      trivial
    · rw [if_neg hf] at h ⊢
      exact ⟨h.1, ih h.2⟩

theorem imPrecedes_body_free_then_initial {i : Nat} {fs : List Frame}
    (h : noStreamBody i fs) (f : Frame) (hf : initialHeadersFrame i f = true) :
    imPrecedes i (fs ++ [f]) := by
  induction fs with
  | nil => simp [imPrecedes, hf]
  | cons g rest ih =>
    rw [List.cons_append]
    unfold imPrecedes
    split
    · trivial
    · exact ⟨h g (by simp), ih (fun g2 hg2 => h g2 (by simp [hg2]))⟩

theorem C2Inv_extend {i : Nat} {t t' : Transport} (h : C2Inv i t)
    (hq : t'.qbuf = [])
    (him : (t'.streams i).sent_initial_metadata = (t.streams i).sent_initial_metadata)
    (gs : List Frame) (hout : t'.outbuf = t.outbuf ++ gs)
    (hgs : ∀ f ∈ gs, bodyFrame i f = false) :
    C2Inv i t' := by
  obtain ⟨hq0, h0, h1⟩ := h
  refine ⟨hq, ?_, ?_⟩
  · intro hf
    rw [him] at hf
    rw [hout]
    exact noStreamBody_append (h0 hf) hgs
  · intro hf
    rw [him] at hf
    obtain ⟨⟨f, hfm, hfi⟩, hp⟩ := h1 hf
    rw [hout]
    exact ⟨⟨f, List.mem_append.mpr (Or.inl hfm), hfi⟩, imPrecedes_append_clean hp hgs⟩

theorem C2Inv_extend_sent {i : Nat} {t t' : Transport} (h : C2Inv i t)
    (hq : t'.qbuf = [])
    (him : (t'.streams i).sent_initial_metadata = true)
    (himt : (t.streams i).sent_initial_metadata = true)
    (gs : List Frame) (hout : t'.outbuf = t.outbuf ++ gs) :
    C2Inv i t' := by
  obtain ⟨hq0, h0, h1⟩ := h
  obtain ⟨⟨f, hfm, hfi⟩, hp⟩ := h1 himt
  refine ⟨hq, ?_, ?_⟩
  · intro hf
    rw [hf] at him
    cases him
  · intro _
    rw [hout]
    exact ⟨⟨f, List.mem_append.mpr (Or.inl hfm), hfi⟩,
           imPrecedes_append_contains gs hp ⟨f, hfm, hfi⟩⟩

theorem onlyStream_nil (ip : Nat) : onlyStream ip [] := by
  intro f hf
  simp at hf

theorem onlyStream_single (ip : Nat) (f : Frame)
    (h : ∀ k, k ≠ ip →
      bodyFrame k f = false ∧ initialHeadersFrame k f = false ∧ isTerminalFrame k f = false) :
    onlyStream ip [f] := by
  intro g hg k hk
  rw [List.mem_singleton.mp hg]
  exact h k hk

theorem onlyStream_headers (ip : Nat) (b : Bool) : onlyStream ip [Frame.headers ip b] := by
  refine onlyStream_single ip _ (fun k hk => ?_)
  have hb : (ip == k) = false := beq_eq_false_iff_ne.mpr (Ne.symm hk)
  simp [bodyFrame, initialHeadersFrame, isTerminalFrame, hb]

theorem onlyStream_data (ip n : Nat) (l : Bool) : onlyStream ip [Frame.data ip n l] := by
  refine onlyStream_single ip _ (fun k hk => ?_)
  have hb : (ip == k) = false := beq_eq_false_iff_ne.mpr (Ne.symm hk)
  simp [bodyFrame, initialHeadersFrame, isTerminalFrame, hb]

theorem onlyStream_wu (ip n : Nat) : onlyStream ip [Frame.windowUpdate ip n] := by
  refine onlyStream_single ip _ (fun k hk => ?_)
  simp [bodyFrame, initialHeadersFrame, isTerminalFrame]

theorem onlyStream_rst (ip : Nat) : onlyStream ip [Frame.rstStream ip] := by
  refine onlyStream_single ip _ (fun k hk => ?_)
  simp [bodyFrame, initialHeadersFrame, isTerminalFrame]

theorem onlyStream_append {ip : Nat} {gs1 gs2 : List Frame}
    (h1 : onlyStream ip gs1) (h2 : onlyStream ip gs2) : onlyStream ip (gs1 ++ gs2) := by
  intro f hf
  rcases List.mem_append.mp hf with h | h
  · exact h1 f h
  · exact h2 f h

theorem phaseInitialMetadata_effects (t : Transport) (ip : Nat) :
    (phaseInitialMetadata t ip).1.qbuf = t.qbuf
      ∧ (∀ j, j ≠ ip → (phaseInitialMetadata t ip).1.streams j = t.streams j)
      ∧ ∃ gs, (phaseInitialMetadata t ip).1.outbuf = t.outbuf ++ gs ∧ onlyStream ip gs := by
  unfold phaseInitialMetadata
  dsimp only
  split
  · exact ⟨rfl, fun j hj => by simp [hj], [Frame.headers ip false], rfl,
      onlyStream_headers ip false⟩
  · exact ⟨rfl, fun j hj => rfl, [], (List.append_nil _).symm, onlyStream_nil ip⟩

theorem phaseAnnounce_effects (t : Transport) (ip : Nat) :
    (phaseAnnounce t ip).1.qbuf = t.qbuf
      ∧ (∀ j, j ≠ ip → (phaseAnnounce t ip).1.streams j = t.streams j)
      ∧ ∃ gs, (phaseAnnounce t ip).1.outbuf = t.outbuf ++ gs ∧ onlyStream ip gs := by
  unfold phaseAnnounce
  dsimp only
  split
  · exact ⟨rfl, fun j hj => by simp [hj],
      [Frame.windowUpdate ip (t.streams ip).announce_window], rfl, onlyStream_wu ip _⟩
  · exact ⟨rfl, fun j hj => rfl, [], (List.append_nil _).symm, onlyStream_nil ip⟩

theorem phaseData_effects (t : Transport) (ip : Nat) :
    (phaseData t ip).1.qbuf = t.qbuf
      ∧ (∀ j, j ≠ ip → (phaseData t ip).1.streams j = t.streams j)
      ∧ ∃ gs, (phaseData t ip).1.outbuf = t.outbuf ++ gs ∧ onlyStream ip gs := by
  unfold phaseData
  dsimp only
  split_ifs <;>
    refine ⟨rfl, fun j hj => by simp [hj], ?_⟩ <;>
    first
      | exact ⟨[], (List.append_nil _).symm, onlyStream_nil ip⟩
      | exact ⟨_, rfl, onlyStream_data ip _ _⟩
      | exact ⟨_, List.append_assoc _ _ _,
          onlyStream_append (onlyStream_data ip _ _) (onlyStream_rst ip)⟩

theorem phaseTrailing_effects (t : Transport) (ip : Nat) :
    (phaseTrailing t ip).1.qbuf = t.qbuf
      ∧ (∀ j, j ≠ ip → (phaseTrailing t ip).1.streams j = t.streams j)
      ∧ ∃ gs, (phaseTrailing t ip).1.outbuf = t.outbuf ++ gs ∧ onlyStream ip gs := by
  unfold phaseTrailing
  dsimp only
  split
  · exact ⟨rfl, fun j hj => rfl, [], (List.append_nil _).symm, onlyStream_nil ip⟩
  · split
    · split_ifs <;>
        refine ⟨rfl, fun j hj => by simp [hj], ?_⟩ <;>
        first
          | exact ⟨_, rfl, onlyStream_data ip _ _⟩
          | exact ⟨_, rfl, onlyStream_headers ip _⟩
          | exact ⟨_, List.append_assoc _ _ _,
              onlyStream_append (onlyStream_data ip _ _) (onlyStream_rst ip)⟩
          | exact ⟨_, List.append_assoc _ _ _,
              onlyStream_append (onlyStream_headers ip _) (onlyStream_rst ip)⟩
    · exact ⟨rfl, fun j hj => rfl, [], (List.append_nil _).symm, onlyStream_nil ip⟩

theorem phaseFinish_effects (t : Transport) (ip : Nat) (nw : Bool) :
    (phaseFinish t ip nw).qbuf = t.qbuf
      ∧ (phaseFinish t ip nw).outbuf = t.outbuf
      ∧ ∃ r, ∀ j, (phaseFinish t ip nw).streams j
          = if j = ip then { t.streams ip with refcount := r } else t.streams j := by
  unfold phaseFinish
  dsimp only
  split
  · split
    · exact ⟨rfl, rfl, (t.streams ip).refcount - 1, fun j => by by_cases hj : j = ip <;> simp [hj]⟩
    · refine ⟨rfl, rfl, (t.streams ip).refcount, fun j => ?_⟩
      by_cases hj : j = ip <;> simp [hj]
  · exact ⟨rfl, rfl, (t.streams ip).refcount - 1, fun j => by by_cases hj : j = ip <;> simp [hj]⟩

theorem phaseIM_local_flag (t : Transport) (ip : Nat) :
    (phaseInitialMetadata t ip).2.1
      = ((phaseInitialMetadata t ip).1.streams ip).sent_initial_metadata := by
  unfold phaseInitialMetadata
  dsimp only
  split
  · simp
  · rfl

theorem phaseAnnounce_sent_im (t : Transport) (ip j : Nat) :
    ((phaseAnnounce t ip).1.streams j).sent_initial_metadata
      = (t.streams j).sent_initial_metadata := by
  unfold phaseAnnounce
  dsimp only
  split
  · by_cases hj : j = ip <;> simp [hj]
  · rfl

theorem phaseData_sent_im (t : Transport) (ip j : Nat) :
    ((phaseData t ip).1.streams j).sent_initial_metadata
      = (t.streams j).sent_initial_metadata := by
  unfold phaseData
  dsimp only
  split_ifs <;> (try rfl) <;> by_cases hj : j = ip <;> simp [hj]

theorem phaseTrailing_sent_im (t : Transport) (ip j : Nat) :
    ((phaseTrailing t ip).1.streams j).sent_initial_metadata
      = (t.streams j).sent_initial_metadata := by
  unfold phaseTrailing
  dsimp only
  split
  · rfl
  · split
    · split_ifs <;> by_cases hj : j = ip <;> simp [hj]
    · rfl

theorem phaseIM_C2 (t : Transport) (ip i : Nat) (h : C2Inv i t) :
    C2Inv i (phaseInitialMetadata t ip).1 := by
  by_cases hip : i = ip
  · subst hip
    obtain ⟨hq, h0, h1⟩ := h
    unfold phaseInitialMetadata
    dsimp only
    split
    next hc =>
      refine ⟨by simpa using hq, ?_, ?_⟩
      · intro hf
        simp at hf
      · intro _
        constructor
        · exact ⟨Frame.headers i false, by simp, by simp [initialHeadersFrame]⟩
        · simp only [updStream_outbuf]
          exact imPrecedes_body_free_then_initial (h0 hc.1) _ (by simp [initialHeadersFrame])
    next => exact ⟨hq, h0, h1⟩
  · obtain ⟨hq, hsj, gs, hout, honly⟩ := phaseInitialMetadata_effects t ip
    exact C2Inv_extend h (by rw [hq]; exact h.1) (by rw [hsj i hip]) gs hout
      (fun f hf => (honly f hf i hip).1)

theorem phaseAnnounce_C2 (t : Transport) (ip i : Nat) (h : C2Inv i t) :
    C2Inv i (phaseAnnounce t ip).1 := by
  unfold phaseAnnounce
  dsimp only
  split
  · refine C2Inv_extend h (by simpa using h.1) ?_
      [Frame.windowUpdate ip (t.streams ip).announce_window] (by simp) ?_
    · by_cases hip : i = ip <;> simp [hip]
    · intro f hf
      rw [List.mem_singleton.mp hf]
      simp [bodyFrame]
  · exact h

theorem phaseData_C2 (t : Transport) (ip i : Nat)
    (hsent : (t.streams ip).sent_initial_metadata = true)
    (h : C2Inv i t) : C2Inv i (phaseData t ip).1 := by
  obtain ⟨hq, hsj, gs, hout, honly⟩ := phaseData_effects t ip
  by_cases hip : i = ip
  · subst hip
    exact C2Inv_extend_sent h (by rw [hq]; exact h.1)
      (by rw [phaseData_sent_im]; exact hsent) hsent gs hout
  · exact C2Inv_extend h (by rw [hq]; exact h.1) (by rw [hsj i hip]) gs hout
      (fun f hf => (honly f hf i hip).1)

theorem phaseTrailing_C2 (t : Transport) (ip i : Nat)
    (hsent : (t.streams ip).sent_initial_metadata = true)
    (h : C2Inv i t) : C2Inv i (phaseTrailing t ip).1 := by
  obtain ⟨hq, hsj, gs, hout, honly⟩ := phaseTrailing_effects t ip
  by_cases hip : i = ip
  · subst hip
    exact C2Inv_extend_sent h (by rw [hq]; exact h.1)
      (by rw [phaseTrailing_sent_im]; exact hsent) hsent gs hout
  · exact C2Inv_extend h (by rw [hq]; exact h.1) (by rw [hsj i hip]) gs hout
      (fun f hf => (honly f hf i hip).1)

theorem phaseFinish_C2 (t : Transport) (ip i : Nat) (nw : Bool) (h : C2Inv i t) :
    C2Inv i (phaseFinish t ip nw) := by
  obtain ⟨hq, hob, r, hstr⟩ := phaseFinish_effects t ip nw
  refine C2Inv_extend h (by rw [hq]; exact h.1) ?_ [] (by rw [hob, List.append_nil]) ?_
  · rw [hstr i]
    by_cases hip : i = ip <;> simp [hip]
  · intro f hf
    simp at hf

theorem processOne_C2 (t : Transport) (ip i : Nat) (h : C2Inv i t) :
    C2Inv i (processOne t ip) := by
  have h1 := phaseIM_C2 t ip i h
  have h2 := phaseAnnounce_C2 (phaseInitialMetadata t ip).1 ip i h1
  unfold processOne processIter
  dsimp only
  split
  case isTrue hflag =>
    have hf1 : ((phaseInitialMetadata t ip).1.streams ip).sent_initial_metadata = true := by
      rw [← phaseIM_local_flag]
      exact hflag
    have hf2 : ((phaseAnnounce (phaseInitialMetadata t ip).1 ip).1.streams
        ip).sent_initial_metadata = true := by
      rw [phaseAnnounce_sent_im]
      exact hf1
    have h3 := phaseData_C2 _ ip i hf2 h2
    have hf3 : ((phaseData (phaseAnnounce (phaseInitialMetadata t ip).1 ip).1 ip).1.streams
        ip).sent_initial_metadata = true := by
      rw [phaseData_sent_im]
      exact hf2
    have h4 := phaseTrailing_C2 _ ip i hf3 h3
    exact phaseFinish_C2 _ ip i _ h4
  case isFalse =>
    exact phaseFinish_C2 _ ip i _ h2

theorem writeLoop_C2 (i : Nat) (fuel : Nat) :
    ∀ t : Transport, C2Inv i t → C2Inv i (writeLoop fuel t) := by
  induction fuel with
  | zero => exact fun t h => h
  | succ fuel ih =>
    intro t h
    unfold writeLoop
    split
    · exact h
    case h_2 ip rest heq =>
      refine ih _ (processOne_C2 _ ip i ?_)
      exact ⟨h.1, h.2.1, h.2.2⟩

theorem begin_write_C2 (t : Transport) (i : Nat) (h : C2Inv i t) :
    C2Inv i (grpc_chttp2_begin_write t).1 := by
  have h1 : C2Inv i (maybeSendSettings t) := by
    unfold maybeSendSettings
    split
    · refine C2Inv_extend h (by simpa using h.1) (by simp) [Frame.settings] (by simp) ?_
      intro f hf
      rw [List.mem_singleton.mp hf]
      simp [bodyFrame]
    · exact h
  have h2 : C2Inv i (flushQbuf (maybeSendSettings t)) := by
    refine C2Inv_extend h1 (by simp [flushQbuf]) (by simp [flushQbuf])
      (maybeSendSettings t).qbuf (by simp [flushQbuf]) ?_
    intro f hf
    rw [h1.1] at hf
    simp at hf
  have h3 : C2Inv i (moveStalledToWritable (flushQbuf (maybeSendSettings t))) := by
    unfold moveStalledToWritable
    split
    · exact C2Inv_extend h2 (by simpa using h2.1) (by simp) [] (by simp) (by simp)
    · exact h2
  have h4 := writeLoop_C2 i
    (loopFuel (moveStalledToWritable (flushQbuf (maybeSendSettings t)))) _ h3
  unfold grpc_chttp2_begin_write
  dsimp only
  unfold announceTransportWindow
  dsimp only
  split
  · refine C2Inv_extend h4 (by simpa using h4.1) (by simp) _ rfl ?_
    intro f hf
    rw [List.mem_singleton.mp hf]
    simp [bodyFrame]
  · exact h4

theorem applyEvent_C2 (t : Transport) (i : Nat) (e : WEvent) (h : C2Inv i t) :
    C2Inv i (applyEvent t e) := by
  cases e with
  | beginWrite => exact begin_write_C2 t i h
  | creditTransport n =>
    exact C2Inv_extend h h.1 rfl [] (by simp [applyEvent]) (by simp)
  | creditStream k n =>
    refine C2Inv_extend h h.1 ?_ [] (by simp [applyEvent]) (by simp)
    by_cases hik : i = k <;> simp [applyEvent, updStream, hik]

theorem runEvents_C2 (i : Nat) (es : List WEvent) :
    ∀ t : Transport, C2Inv i t → C2Inv i (runEvents t es) := by
  induction es with
  | nil => exact fun t h => h
  | cons e rest ih =>
    intro t h
    exact ih (applyEvent t e) (applyEvent_C2 t i e h)

/-- C2: for a stream that has not yet sent its initial metadata, any
sequence of begin_write passes and window credits never emits a DATA or
trailing metadata frame for that stream before its initial metadata
HEADERS frame: in the accumulated output, no body or trailer frame for
the stream precedes the first initial metadata frame for the stream. -/
theorem C2_metadata_before_body (t0 : Transport) (es : List WEvent) (i : Nat)
    (hq : t0.qbuf = [])
    (him : (t0.streams i).sent_initial_metadata = false)
    (hnb : noStreamBody i t0.outbuf) :
    imPrecedes i (runEvents t0 es).outbuf := by
  have hInv : C2Inv i (runEvents t0 es) :=
    runEvents_C2 i es t0
      ⟨hq, fun _ => hnb, fun hf => by rw [hf] at him; cases him⟩
  obtain ⟨_, h0, h1⟩ := hInv
  cases hf : ((runEvents t0 es).streams i).sent_initial_metadata
  · exact noStreamBody_imPrecedes (h0 hf)
  · exact (h1 hf).2

theorem C2_metadata_before_body_witness :
    imPrecedes 1 (runEvents exC5 [WEvent.beginWrite]).outbuf := by
  refine C2_metadata_before_body exC5 [WEvent.beginWrite] 1 (by decide) (by decide) ?_
  intro f hf
  simp [exC5, baseTransport] at hf

@[simp] theorem countTerminal_nil (i : Nat) : countTerminal i [] = 0 := rfl

@[simp] theorem countTerminal_append (i : Nat) (fs gs : List Frame) :
    countTerminal i (fs ++ gs) = countTerminal i fs + countTerminal i gs := by
  simp [countTerminal, List.filter_append]

@[simp] theorem countTerminal_cons (i : Nat) (f : Frame) (fs : List Frame) :
    countTerminal i (f :: fs)
      = (if isTerminalFrame i f = true then 1 else 0) + countTerminal i fs := by
  simp only [countTerminal, List.filter_cons]
  split_ifs <;> simp <;> omega

theorem countTerminal_eq_zero {i : Nat} {gs : List Frame}
    (h : ∀ f ∈ gs, isTerminalFrame i f = false) : countTerminal i gs = 0 := by
  simp only [countTerminal, List.length_eq_zero]
  exact List.filter_eq_nil.mpr (fun f hf => by rw [h f hf]; simp)

theorem C3Step_refl (i : Nat) (t : Transport) : C3Step i t t := by
  intro hg
  refine ⟨hg, fun hf => hf, ?_⟩
  cases hb : (t.streams i).sent_trailing_metadata <;> simp [hb]

theorem C3Step_extend {i : Nat} {t t' : Transport}
    (hq : t.qbuf = [] → t'.qbuf = [])
    (hst : (t'.streams i).sent_trailing_metadata = (t.streams i).sent_trailing_metadata)
    (hsd : (t'.streams i).send_trailing_metadata = (t.streams i).send_trailing_metadata)
    (gs : List Frame) (hout : t'.outbuf = t.outbuf ++ gs)
    (hgs : countTerminal i gs = 0) : C3Step i t t' := by
  intro hg
  obtain ⟨hg1, hg2⟩ := hg
  refine ⟨⟨hq hg1, by rw [hst, hsd]; exact hg2⟩, by rw [hst]; exact fun hf => hf, ?_⟩
  rw [hout, countTerminal_append, hgs, hst]
  cases hb : (t.streams i).sent_trailing_metadata <;> simp [hb]

theorem C3Step_trans {i : Nat} {t1 t2 t3 : Transport}
    (h12 : C3Step i t1 t2) (h23 : C3Step i t2 t3) : C3Step i t1 t3 := by
  intro hg
  obtain ⟨hg2, hm1, hc1⟩ := h12 hg
  obtain ⟨hg3, hm2, hc2⟩ := h23 hg2
  refine ⟨hg3, fun hf => hm2 (hm1 hf), ?_⟩
  rw [hc2, hc1]
  cases hb1 : (t1.streams i).sent_trailing_metadata
  · cases hb2 : (t2.streams i).sent_trailing_metadata
    · simp [hb1, hb2]
    · have hf3 := hm2 hb2
      simp [hb1, hb2, hf3]
  · have hf2 := hm1 hb1
    have hf3 := hm2 hf2
    simp [hb1, hf2, hf3]

theorem phaseIM_trailing (t : Transport) (ip j : Nat) :
    ((phaseInitialMetadata t ip).1.streams j).sent_trailing_metadata
        = (t.streams j).sent_trailing_metadata
      ∧ ((phaseInitialMetadata t ip).1.streams j).send_trailing_metadata
        = (t.streams j).send_trailing_metadata := by
  unfold phaseInitialMetadata
  dsimp only
  split
  · by_cases hj : j = ip <;> simp [hj]
  · exact ⟨rfl, rfl⟩

theorem phaseAnnounce_trailing (t : Transport) (ip j : Nat) :
    ((phaseAnnounce t ip).1.streams j).sent_trailing_metadata
        = (t.streams j).sent_trailing_metadata
      ∧ ((phaseAnnounce t ip).1.streams j).send_trailing_metadata
        = (t.streams j).send_trailing_metadata := by
  unfold phaseAnnounce
  dsimp only
  split
  · by_cases hj : j = ip <;> simp [hj]
  · exact ⟨rfl, rfl⟩

theorem phaseIM_C3 (t : Transport) (ip i : Nat) : C3Step i t (phaseInitialMetadata t ip).1 := by
  obtain ⟨hq, hsj, gs, hout, honly⟩ := phaseInitialMetadata_effects t ip
  refine C3Step_extend (fun h => by rw [hq]; exact h) (phaseIM_trailing t ip i).1
    (phaseIM_trailing t ip i).2 gs hout ?_
  by_cases hip : i = ip
  · subst hip
    unfold phaseInitialMetadata at hout
    revert hout
    dsimp only
    split <;> intro hout
    · have : gs = [Frame.headers i false] := by
        have := hout
        simp at this
        exact List.append_cancel_left (hout ▸ rfl : t.outbuf ++ [Frame.headers i false]
          = t.outbuf ++ gs).symm
      rw [this]
      exact countTerminal_eq_zero (fun f hf => by
        rw [List.mem_singleton.mp hf]
        simp [isTerminalFrame])
    · have : gs = [] := by
        have h2 : t.outbuf ++ ([] : List Frame) = t.outbuf ++ gs := by
          rw [List.append_nil]
          exact hout
        exact (List.append_cancel_left h2).symm
      rw [this]
      rfl
  · exact countTerminal_eq_zero (fun f hf => (honly f hf i hip).2.2)

theorem phaseAnnounce_C3 (t : Transport) (ip i : Nat) : C3Step i t (phaseAnnounce t ip).1 := by
  unfold phaseAnnounce
  dsimp only
  split
  · refine C3Step_extend (fun h => by simpa using h) ?_ ?_
      [Frame.windowUpdate ip (t.streams ip).announce_window] (by simp) ?_
    · by_cases hip : i = ip <;> simp [hip]
    · by_cases hip : i = ip <;> simp [hip]
    · exact countTerminal_eq_zero (fun f hf => by
        rw [List.mem_singleton.mp hf]
        simp [isTerminalFrame])
  · exact C3Step_refl i t

theorem phaseFinish_C3 (t : Transport) (ip i : Nat) (nw : Bool) :
    C3Step i t (phaseFinish t ip nw) := by
  obtain ⟨hq, hob, r, hstr⟩ := phaseFinish_effects t ip nw
  refine C3Step_extend (fun h => by rw [hq]; exact h) ?_ ?_ [] (by rw [hob, List.append_nil]) rfl
  · rw [hstr i]
    by_cases hip : i = ip <;> simp [hip]
  · rw [hstr i]
    by_cases hip : i = ip <;> simp [hip]

set_option maxHeartbeats 1000000 in
theorem phaseData_C3 (t : Transport) (ip i : Nat) : C3Step i t (phaseData t ip).1 := by
  by_cases hip : i = ip
  · subst hip
    intro hg
    obtain ⟨hgq, hgs⟩ := hg
    unfold phaseData
    dsimp only
    split
    case _ hbuf =>
      split
      case _ hmo =>
        by_cases hlast : (!(t.streams i).fetching_send_message
            && decide (min (max_outgoing t (t.streams i))
                (t.streams i).flow_controlled_buffer
              = (t.streams i).flow_controlled_buffer)
            && trailingEmpty (t.streams i).send_trailing_metadata) = true
        · have hflag : (t.streams i).sent_trailing_metadata = false := by
            have hsome : trailingEmpty (t.streams i).send_trailing_metadata = true := by
              have h2 := hlast
              rw [Bool.and_eq_true] at h2
              exact h2.2
            cases hb : (t.streams i).sent_trailing_metadata
            · rfl
            · rw [hgs hb] at hsome
              cases hsome
          have heq : max_outgoing t (t.streams i) ⊓ (t.streams i).flow_controlled_buffer
              = (t.streams i).flow_controlled_buffer := by
            have h2 := hlast
            rw [Bool.and_eq_true] at h2
            have h3 := h2.1
            rw [Bool.and_eq_true] at h3
            exact of_decide_eq_true h3.2
          rw [hlast]
          simp only [eq_self_iff_true, if_true, heq, Nat.sub_self]
          refine ⟨⟨?_, fun _ => ?_⟩, fun _ => ?_, ?_⟩
          · split_ifs <;> first | (exfalso; omega) | exact hgq
          · split_ifs <;> first | (exfalso; omega) | simp
          · split_ifs <;> first | (exfalso; omega) | simp
          · split_ifs <;> first | (exfalso; omega) | simp_all [isTerminalFrame]
        · rw [Bool.not_eq_true] at hlast
          rw [hlast]
          simp only [Bool.false_eq_true, Bool.false_and, if_false]
          refine ⟨⟨?_, ?_⟩, ?_, ?_⟩
          · split_ifs <;> exact hgq
          · split_ifs <;> simpa using hgs
          · split_ifs <;> (intro hf; simpa using hf)
          · split_ifs <;> simp_all [isTerminalFrame]
      case _ =>
        split
        · exact C3Step_extend (fun h => h) rfl rfl [] (by simp) rfl ⟨hgq, hgs⟩
        · exact (C3Step_refl i t) ⟨hgq, hgs⟩
    case _ => exact (C3Step_refl i t) ⟨hgq, hgs⟩
  · obtain ⟨hq, hsj, gs, hout, honly⟩ := phaseData_effects t ip
    refine C3Step_extend (fun h => by rw [hq]; exact h)
      (by rw [hsj i hip]) (by rw [hsj i hip]) gs hout
      (countTerminal_eq_zero (fun f hf => (honly f hf i hip).2.2))

set_option maxHeartbeats 1000000 in
theorem phaseTrailing_C3 (t : Transport) (ip i : Nat) : C3Step i t (phaseTrailing t ip).1 := by
  by_cases hip : i = ip
  · subst hip
    intro hg
    obtain ⟨hgq, hgs⟩ := hg
    unfold phaseTrailing
    dsimp only
    split
    · exact (C3Step_refl i t) ⟨hgq, hgs⟩
    · rename_i m heq
      split
      · have hflag : (t.streams i).sent_trailing_metadata = false := by
          cases hb : (t.streams i).sent_trailing_metadata
          · rfl
          · rw [hgs hb] at heq
            cases heq
        refine ⟨⟨?_, fun _ => ?_⟩, fun _ => ?_, ?_⟩
        · split_ifs <;> exact hgq
        · split_ifs <;> simp
        · split_ifs <;> simp
        · split_ifs <;> simp_all [isTerminalFrame]
      · exact (C3Step_refl i t) ⟨hgq, hgs⟩
  · obtain ⟨hq, hsj, gs, hout, honly⟩ := phaseTrailing_effects t ip
    exact C3Step_extend (fun h => by rw [hq]; exact h)
      (by rw [hsj i hip]) (by rw [hsj i hip]) gs hout
      (countTerminal_eq_zero (fun f hf => (honly f hf i hip).2.2))

theorem processOne_C3 (t : Transport) (ip i : Nat) : C3Step i t (processOne t ip) := by
  have h1 := phaseIM_C3 t ip i
  have h2 := phaseAnnounce_C3 (phaseInitialMetadata t ip).1 ip i
  have h3 := phaseData_C3 (phaseAnnounce (phaseInitialMetadata t ip).1 ip).1 ip i
  have h4 := phaseTrailing_C3
    (phaseData (phaseAnnounce (phaseInitialMetadata t ip).1 ip).1 ip).1 ip i
  unfold processOne processIter
  dsimp only
  split
  · exact C3Step_trans (C3Step_trans (C3Step_trans (C3Step_trans h1 h2) h3) h4)
      (phaseFinish_C3 _ ip i _)
  · exact C3Step_trans (C3Step_trans h1 h2) (phaseFinish_C3 _ ip i _)

theorem writeLoop_C3 (i : Nat) (fuel : Nat) :
    ∀ t : Transport, C3Step i t (writeLoop fuel t) := by
  induction fuel with
  | zero => exact fun t => C3Step_refl i t
  | succ fuel ih =>
    intro t
    unfold writeLoop
    split
    · exact C3Step_refl i t
    case h_2 ip rest heq =>
      refine C3Step_trans (C3Step_trans ?_ (processOne_C3 { t with writable := rest } ip i))
        (ih (processOne { t with writable := rest } ip))
      exact C3Step_extend (fun h => h) rfl rfl [] (by simp) rfl

theorem flushQbuf_C3 (t : Transport) (i : Nat) : C3Step i t (flushQbuf t) := by
  intro hg
  obtain ⟨hgq, hgs⟩ := hg
  refine ⟨⟨rfl, hgs⟩, fun hf => hf, ?_⟩
  show countTerminal i (t.outbuf ++ t.qbuf) = _
  rw [hgq]
  cases hb : (t.streams i).sent_trailing_metadata <;> simp [hb, flushQbuf]

theorem begin_write_C3 (t : Transport) (i : Nat) :
    C3Step i t (grpc_chttp2_begin_write t).1 := by
  have h1 : C3Step i t (maybeSendSettings t) := by
    unfold maybeSendSettings
    split
    · refine C3Step_extend (fun h => by simpa using h) rfl rfl [Frame.settings] (by simp) ?_
      exact countTerminal_eq_zero (fun f hf => by
        rw [List.mem_singleton.mp hf]
        simp [isTerminalFrame])
    · exact C3Step_refl i t
  have h2 := flushQbuf_C3 (maybeSendSettings t) i
  have h3 : C3Step i (flushQbuf (maybeSendSettings t))
      (moveStalledToWritable (flushQbuf (maybeSendSettings t))) := by
    unfold moveStalledToWritable
    split
    · exact C3Step_extend (fun h => h) rfl rfl [] (by simp) rfl
    · exact C3Step_refl i _
  have h4 := writeLoop_C3 i
    (loopFuel (moveStalledToWritable (flushQbuf (maybeSendSettings t))))
    (moveStalledToWritable (flushQbuf (maybeSendSettings t)))
  have h5 : C3Step i
      (writeLoop (loopFuel (moveStalledToWritable (flushQbuf (maybeSendSettings t))))
        (moveStalledToWritable (flushQbuf (maybeSendSettings t))))
      (grpc_chttp2_begin_write t).1 := by
    unfold grpc_chttp2_begin_write
    dsimp only
    unfold announceTransportWindow
    dsimp only
    split
    · refine C3Step_extend (fun h => by simpa using h) rfl rfl _ rfl ?_
      exact countTerminal_eq_zero (fun f hf => by
        rw [List.mem_singleton.mp hf]
        simp [isTerminalFrame])
    · exact C3Step_refl i _
  exact C3Step_trans (C3Step_trans (C3Step_trans (C3Step_trans h1 h2) h3) h4) h5

theorem applyEvent_C3 (t : Transport) (i : Nat) (e : WEvent) :
    C3Step i t (applyEvent t e) := by
  cases e with
  | beginWrite => exact begin_write_C3 t i
  | creditTransport n =>
    exact C3Step_extend (fun h => h) rfl rfl [] (by simp [applyEvent]) rfl
  | creditStream k n =>
    refine C3Step_extend (fun h => h) ?_ ?_ [] (by simp [applyEvent]) rfl <;>
      by_cases hik : i = k <;> simp [applyEvent, updStream, hik]

theorem runEvents_C3 (i : Nat) (es : List WEvent) :
    ∀ t : Transport, C3Step i t (runEvents t es) := by
  induction es with
  | nil => exact fun t => C3Step_refl i t
  | cons e rest ih =>
    intro t
    exact C3Step_trans (applyEvent_C3 t i e) (ih (applyEvent t e))

/-- C3: over any sequence of begin_write passes and credits, a stream
with no terminal frame emitted yet emits at most one terminal frame (a
DATA frame marked last or a trailing HEADERS frame): exactly one when
sent_trailing_metadata flips to true, none otherwise; the flag is
monotone, so neither emission site can fire once it is set, and the two
sites cannot both fire. -/
theorem C3_terminal_at_most_once (t0 : Transport) (es : List WEvent) (i : Nat)
    (hq : t0.qbuf = [])
    (hinv : (t0.streams i).sent_trailing_metadata = true →
        (t0.streams i).send_trailing_metadata = none)
    (hcnt : countTerminal i t0.outbuf = 0) :
    countTerminal i (runEvents t0 es).outbuf
        = (if ((runEvents t0 es).streams i).sent_trailing_metadata = true
              ∧ (t0.streams i).sent_trailing_metadata = false then 1 else 0)
      ∧ countTerminal i (runEvents t0 es).outbuf ≤ 1
      ∧ ((t0.streams i).sent_trailing_metadata = true →
          ((runEvents t0 es).streams i).sent_trailing_metadata = true) := by
  obtain ⟨hg, hmono, hcount⟩ := runEvents_C3 i es t0 ⟨hq, hinv⟩
  rw [hcnt] at hcount
  refine ⟨by rw [hcount]; simp, ?_, hmono⟩
  rw [hcount]
  split_ifs <;> simp

theorem C3_terminal_at_most_once_witness :
    countTerminal 1 (runEvents exC5 [WEvent.beginWrite]).outbuf ≤ 1 :=
  (C3_terminal_at_most_once exC5 [WEvent.beginWrite] 1 (by decide) (by decide)
    (by decide)).2.1

theorem phaseIM_lists (t : Transport) (ip : Nat) :
    (phaseInitialMetadata t ip).1.writing = t.writing
      ∧ (phaseInitialMetadata t ip).1.writable = t.writable
      ∧ (phaseInitialMetadata t ip).1.stalled_by_transport = t.stalled_by_transport := by
  unfold phaseInitialMetadata
  dsimp only
  split <;> exact ⟨rfl, rfl, rfl⟩

theorem phaseAnnounce_lists (t : Transport) (ip : Nat) :
    (phaseAnnounce t ip).1.writing = t.writing
      ∧ (phaseAnnounce t ip).1.writable = t.writable
      ∧ (phaseAnnounce t ip).1.stalled_by_transport = t.stalled_by_transport := by
  unfold phaseAnnounce
  dsimp only
  split <;> exact ⟨rfl, rfl, rfl⟩

theorem phaseData_writing (t : Transport) (ip : Nat) :
    (phaseData t ip).1.writing = t.writing := by
  unfold phaseData
  dsimp only
  split_ifs <;> rfl

theorem phaseTrailing_lists (t : Transport) (ip : Nat) :
    (phaseTrailing t ip).1.writing = t.writing
      ∧ (phaseTrailing t ip).1.writable = t.writable
      ∧ (phaseTrailing t ip).1.stalled_by_transport = t.stalled_by_transport := by
  unfold phaseTrailing
  dsimp only
  split
  · exact ⟨rfl, rfl, rfl⟩
  · split
    · split_ifs <;> exact ⟨rfl, rfl, rfl⟩
    · exact ⟨rfl, rfl, rfl⟩

theorem processIter_writing (t : Transport) (ip : Nat) :
    (processIter t ip).t.writing = t.writing := by
  unfold processIter
  dsimp only
  split
  · show (phaseTrailing _ ip).1.writing = t.writing
    rw [(phaseTrailing_lists _ ip).1, phaseData_writing, (phaseAnnounce_lists _ ip).1,
      (phaseIM_lists t ip).1]
  · show (phaseAnnounce _ ip).1.writing = t.writing
    rw [(phaseAnnounce_lists _ ip).1, (phaseIM_lists t ip).1]

/-- C7 (amended): a popped stream is marked now-writing iff its
iteration emitted initial metadata, emitted a DATA frame, re-stalled on
the transport queue, or emitted trailing metadata; a window update alone
does not count.  A now-writing stream is moved onto the writing list,
dropping the duplicate reference when already a member; otherwise the
stream leaves every write list and its reference is released. -/
theorem C7_amended_now_writing_classification (t : Transport) (i : Nat) :
    (processIter t i).now_writing
        = ((processIter t i).emittedInitialMetadata || (processIter t i).emittedDataFrame
            || (processIter t i).stalledOnTransport
            || (processIter t i).emittedTrailingMetadata)
      ∧ ((processIter t i).now_writing = true →
            (i ∈ t.writing →
              processOne t i = updStream (processIter t i).t i
                { (processIter t i).t.streams i with
                  refcount := ((processIter t i).t.streams i).refcount - 1 })
          ∧ (i ∉ t.writing →
              (processOne t i).writing = t.writing ++ [i]
              ∧ (processOne t i).streams i = (processIter t i).t.streams i))
      ∧ ((processIter t i).now_writing = false →
            i ∉ (processOne t i).writable
          ∧ i ∉ (processOne t i).stalled_by_transport
          ∧ i ∉ (processOne t i).writing
          ∧ ((processOne t i).streams i).refcount
              = ((processIter t i).t.streams i).refcount - 1) := by
  have hwr := processIter_writing t i
  refine ⟨?_, ?_, ?_⟩
  · unfold processIter
    dsimp only
    split
    · rfl
    · simp
  · intro hnw
    have hdef : processOne t i = phaseFinish (processIter t i).t i (processIter t i).now_writing :=
      rfl
    rw [hdef, hnw]
    unfold phaseFinish
    dsimp only
    constructor
    · intro hmem
      rw [if_pos rfl, if_pos (hwr ▸ hmem)]
    · intro hmem
      rw [if_pos rfl, if_neg (fun hc => hmem (hwr ▸ hc))]
      exact ⟨by rw [hwr], rfl⟩
  · intro hnw
    have hdef : processOne t i = phaseFinish (processIter t i).t i (processIter t i).now_writing :=
      rfl
    rw [hdef, hnw]
    unfold phaseFinish
    dsimp only
    rw [if_neg (by simp)]
    refine ⟨?_, ?_, ?_, ?_⟩
    · simp
    · simp
    · simp
    · simp

theorem C7_amended_now_writing_classification_witness :
    1 ∉ (processOne exC7 1).writable
      ∧ 1 ∉ (processOne exC7 1).stalled_by_transport
      ∧ 1 ∉ (processOne exC7 1).writing := by
  have h := (C7_amended_now_writing_classification exC7 1).2.2 (by decide)
  exact ⟨h.1, h.2.1, h.2.2.1⟩

theorem phaseIM_skip (t : Transport) (ip : Nat)
    (him : (t.streams ip).sent_initial_metadata = true) :
    phaseInitialMetadata t ip = (t, true, false) := by
  unfold phaseInitialMetadata
  dsimp only
  rw [if_neg (fun hc => by rw [him] at hc; exact absurd hc.1 (by simp)), him]

theorem phaseAnnounce_emit (t : Transport) (ip : Nat)
    (ha : 0 < (t.streams ip).announce_window) :
    phaseAnnounce t ip
      = (updStream
          { t with outbuf := t.outbuf ++ [Frame.windowUpdate ip (t.streams ip).announce_window] }
          ip
          { t.streams ip with
            announce_window := (t.streams ip).announce_window - (t.streams ip).announce_window },
         true) := by
  unfold phaseAnnounce
  dsimp only
  rw [if_pos ha]

theorem phaseAnnounce_skip (t : Transport) (ip : Nat)
    (ha : ¬ 0 < (t.streams ip).announce_window) :
    phaseAnnounce t ip = (t, false) := by
  unfold phaseAnnounce
  dsimp only
  rw [if_neg ha]

theorem max_outgoing_eq_zero {t : Transport} {s : Stream}
    (hw : t.outgoing_window = 0) (hsw : 0 ≤ s.outgoing_window) :
    max_outgoing t s = 0 := by
  unfold max_outgoing u32ofI64
  have h1 : min s.outgoing_window t.outgoing_window = 0 := by
    rw [hw]
    exact min_eq_right hsw
  rw [h1, min_eq_right (by positivity)]
  rfl

theorem phaseData_stall (t : Transport) (ip : Nat)
    (hw : t.outgoing_window = 0)
    (hsw : 0 ≤ (t.streams ip).outgoing_window)
    (hbuf : 0 < (t.streams ip).flow_controlled_buffer) :
    phaseData t ip
      = ({ t with stalled_by_transport := listAdd t.stalled_by_transport ip },
         false, 0, true) := by
  unfold phaseData
  dsimp only
  rw [if_pos hbuf, max_outgoing_eq_zero hw hsw]
  rw [if_neg (by omega), if_pos hw]

theorem phaseTrailing_noop_buf (t : Transport) (ip : Nat)
    (hbuf : 0 < (t.streams ip).flow_controlled_buffer) :
    phaseTrailing t ip = (t, false) := by
  unfold phaseTrailing
  dsimp only
  split
  · rfl
  · rw [if_neg (fun hc => by omega)]

theorem phaseFinish_true_effects (t : Transport) (ip : Nat) :
    ip ∈ (phaseFinish t ip true).writing
      ∧ (phaseFinish t ip true).stalled_by_transport = t.stalled_by_transport
      ∧ (phaseFinish t ip true).writable = t.writable
      ∧ (phaseFinish t ip true).outbuf = t.outbuf
      ∧ (∀ j, j ≠ ip → (phaseFinish t ip true).streams j = t.streams j) := by
  unfold phaseFinish
  dsimp only
  rw [if_pos rfl]
  split
  case isTrue hmem => exact ⟨by simpa using hmem, rfl, rfl, rfl, fun j hj => by simp [hj]⟩
  case isFalse hmem => exact ⟨by simp, rfl, rfl, rfl, fun j hj => rfl⟩

/-- C6 (amended): when the transport window is zero, a considered stream
with buffered body bytes, a nonnegative stream window and initial
metadata already sent gets no DATA frame (at most its pending window
update is emitted), is put on the stalled-by-transport queue, and is
also marked now-writing and placed on the writing list. -/
theorem C6_amended_stall_also_writing (t : Transport) (i : Nat)
    (hw : t.outgoing_window = 0)
    (hsw : 0 ≤ (t.streams i).outgoing_window)
    (him : (t.streams i).sent_initial_metadata = true)
    (hbuf : 0 < (t.streams i).flow_controlled_buffer) :
    (processOne t i).outbuf
        = t.outbuf ++ (if 0 < (t.streams i).announce_window
            then [Frame.windowUpdate i (t.streams i).announce_window] else [])
      ∧ (processOne t i).stalled_by_transport = listAdd t.stalled_by_transport i
      ∧ i ∈ (processOne t i).writing := by
  unfold processOne processIter
  dsimp only
  rw [phaseIM_skip t i him]
  dsimp only
  rw [if_pos rfl]
  by_cases ha : 0 < (t.streams i).announce_window
  · rw [phaseAnnounce_emit t i ha]
    dsimp only
    set t2 := updStream
        { t with outbuf := t.outbuf ++ [Frame.windowUpdate i (t.streams i).announce_window] } i
        { t.streams i with
          announce_window := (t.streams i).announce_window - (t.streams i).announce_window }
      with ht2
    have hd := phaseData_stall t2 i (by simp [ht2, hw]) (by simp [ht2]; exact hsw)
      (by simp [ht2]; exact hbuf)
    rw [hd]
    dsimp only
    have htr := phaseTrailing_noop_buf
      { t2 with stalled_by_transport := listAdd t2.stalled_by_transport i } i
      (by simp [ht2]; exact hbuf)
    rw [htr]
    dsimp only
    simp only [Bool.false_or, Bool.or_false]
    refine ⟨?_, ?_, (phaseFinish_true_effects _ i).1⟩
    · rw [(phaseFinish_true_effects _ i).2.2.2.1]
      simp [ht2, ha]
    · rw [(phaseFinish_true_effects _ i).2.1]
      simp [ht2]
  · rw [phaseAnnounce_skip t i ha]
    dsimp only
    have hd := phaseData_stall t i hw hsw hbuf
    rw [hd]
    dsimp only
    have htr := phaseTrailing_noop_buf
      { t with stalled_by_transport := listAdd t.stalled_by_transport i } i hbuf
    rw [htr]
    dsimp only
    simp only [Bool.false_or, Bool.or_false]
    refine ⟨?_, ?_, (phaseFinish_true_effects _ i).1⟩
    · rw [(phaseFinish_true_effects _ i).2.2.2.1]
      simp [ha]
    · rw [(phaseFinish_true_effects _ i).2.1]

theorem C6_amended_stall_also_writing_witness :
    (processOne exC6 1).outbuf = []
      ∧ (processOne exC6 1).stalled_by_transport = [1]
      ∧ 1 ∈ (processOne exC6 1).writing := by
  have h := C6_amended_stall_also_writing exC6 1 (by decide) (by decide) (by decide) (by decide)
  refine ⟨?_, ?_, h.2.2⟩
  · rw [h.1]
    decide
  · rw [h.2.1]
    decide

set_option maxHeartbeats 1000000 in
theorem phaseData_fork (t : Transport) (ip : Nat)
    (hmo : 0 < max_outgoing t (t.streams ip))
    (hlt : max_outgoing t (t.streams ip) < (t.streams ip).flow_controlled_buffer) :
    (phaseData t ip).1.writable = listAdd t.writable ip
      ∧ (phaseData t ip).1.stalled_by_transport = t.stalled_by_transport
      ∧ (phaseData t ip).1.writing = t.writing
      ∧ (phaseData t ip).1.outbuf
          = t.outbuf ++ [Frame.data ip (max_outgoing t (t.streams ip)) false]
      ∧ (phaseData t ip).1.qbuf = t.qbuf
      ∧ (phaseData t ip).1.streams ip
          = { t.streams ip with
              outgoing_window :=
                (t.streams ip).outgoing_window - max_outgoing t (t.streams ip),
              flow_controlled_buffer :=
                (t.streams ip).flow_controlled_buffer - max_outgoing t (t.streams ip),
              sending_bytes := (t.streams ip).sending_bytes + max_outgoing t (t.streams ip),
              refcount := (t.streams ip).refcount + 1 }
      ∧ (∀ j, j ≠ ip → (phaseData t ip).1.streams j = t.streams j)
      ∧ (phaseData t ip).2.1 = true ∧ (phaseData t ip).2.2.2 = false := by
  unfold phaseData
  dsimp only
  rw [if_pos (by omega : 0 < (t.streams ip).flow_controlled_buffer), if_pos hmo]
  have hsend : min (max_outgoing t (t.streams ip)) (t.streams ip).flow_controlled_buffer
      = max_outgoing t (t.streams ip) := min_eq_left (le_of_lt hlt)
  rw [hsend]
  have hd : decide (max_outgoing t (t.streams ip) = (t.streams ip).flow_controlled_buffer)
      = false := decide_eq_false (by omega)
  rw [hd]
  simp only [Bool.and_false, Bool.false_and, Bool.false_eq_true, if_false]
  rw [if_pos (by omega : 0 < (t.streams ip).flow_controlled_buffer
      - max_outgoing t (t.streams ip))]
  refine ⟨by trivial, by trivial, by trivial, by trivial, by trivial, by simp,
    fun j hj => by simp [hj], by trivial, by trivial⟩

/-- C8 (amended): when a stream buffers more bytes than the positive
min(stream window, transport window, max frame size) permits in one
frame, the begin_write iteration that processes it emits one non-last
DATA frame of exactly that many bytes, pushes a forked second reference
of the stream back onto the writable list for the rest, and the buffer
decreases by exactly the emitted amount. -/
theorem C8_amended_fork_per_iteration (t : Transport) (i : Nat)
    (hsent : (t.streams i).sent_initial_metadata = true)
    (hmo : 0 < max_outgoing t (t.streams i))
    (hlt : max_outgoing t (t.streams i) < (t.streams i).flow_controlled_buffer) :
    i ∈ (processOne t i).writable
      ∧ ((processOne t i).streams i).flow_controlled_buffer
          = (t.streams i).flow_controlled_buffer - max_outgoing t (t.streams i)
      ∧ ((processOne t i).streams i).sending_bytes
          = (t.streams i).sending_bytes + max_outgoing t (t.streams i)
      ∧ (processOne t i).outbuf
          = t.outbuf ++ (if 0 < (t.streams i).announce_window
              then [Frame.windowUpdate i (t.streams i).announce_window] else [])
            ++ [Frame.data i (max_outgoing t (t.streams i)) false]
      ∧ (i ∉ t.writing →
          ((processOne t i).streams i).refcount = (t.streams i).refcount + 1) := by
  unfold processOne processIter
  dsimp only
  rw [phaseIM_skip t i hsent]
  dsimp only
  rw [if_pos rfl]
  by_cases ha : 0 < (t.streams i).announce_window
  · rw [phaseAnnounce_emit t i ha]
    dsimp only
    set t2 := updStream
        { t with outbuf := t.outbuf ++ [Frame.windowUpdate i (t.streams i).announce_window] } i
        { t.streams i with
          announce_window := (t.streams i).announce_window - (t.streams i).announce_window }
      with ht2
    have hmo2 : max_outgoing t2 (t2.streams i) = max_outgoing t (t.streams i) := by
      simp [ht2, max_outgoing]
    obtain ⟨da, db, dc, dd, de, df, dg, dh, di2⟩ := phaseData_fork t2 i
      (by rw [hmo2]; exact hmo) (by rw [hmo2]; simp [ht2]; exact hlt)
    rw [hmo2] at dd df
    have htr := phaseTrailing_noop_buf (phaseData t2 i).1 i
      (by rw [df]; simp [ht2]; omega)
    rw [dh, di2, htr]
    dsimp only
    simp only [Bool.false_or, Bool.or_false, Bool.true_or, Bool.or_true]
    obtain ⟨fq, fo, r, fstr⟩ := phaseFinish_effects (phaseData t2 i).1 i true
    refine ⟨?_, ?_, ?_, ?_, ?_⟩
    · have : (phaseFinish (phaseData t2 i).1 i true).writable = (phaseData t2 i).1.writable := by
        unfold phaseFinish
        dsimp only
        rw [if_pos rfl]
        split <;> rfl
      rw [this, da]
      exact mem_listAdd_self _ i
    · rw [fstr i, if_pos rfl]
      show ((phaseData t2 i).1.streams i).flow_controlled_buffer = _
      rw [df]
      simp [ht2]
    · rw [fstr i, if_pos rfl]
      show ((phaseData t2 i).1.streams i).sending_bytes = _
      rw [df]
      simp [ht2]
    · rw [fo, dd]
      simp [ht2, ha]
    · intro hmem
      unfold phaseFinish
      dsimp only
      rw [if_pos rfl]
      rw [if_neg (by
        rw [dc]
        simp [ht2]
        exact hmem)]
      rw [df]
      simp [ht2]
  · rw [phaseAnnounce_skip t i ha]
    dsimp only
    obtain ⟨da, db, dc, dd, de, df, dg, dh, di2⟩ := phaseData_fork t i hmo hlt
    have htr := phaseTrailing_noop_buf (phaseData t i).1 i (by rw [df]; simp; omega)
    rw [dh, di2, htr]
    dsimp only
    simp only [Bool.false_or, Bool.or_false, Bool.true_or, Bool.or_true]
    obtain ⟨fq, fo, r, fstr⟩ := phaseFinish_effects (phaseData t i).1 i true
    refine ⟨?_, ?_, ?_, ?_, ?_⟩
    · have : (phaseFinish (phaseData t i).1 i true).writable = (phaseData t i).1.writable := by
        unfold phaseFinish
        dsimp only
        rw [if_pos rfl]
        split <;> rfl
      rw [this, da]
      exact mem_listAdd_self _ i
    · rw [fstr i, if_pos rfl]
      show ((phaseData t i).1.streams i).flow_controlled_buffer = _
      rw [df]
    · rw [fstr i, if_pos rfl]
      show ((phaseData t i).1.streams i).sending_bytes = _
      rw [df]
    · rw [fo, dd]
      simp [ha]
    · intro hmem
      unfold phaseFinish
      dsimp only
      rw [if_pos rfl]
      rw [if_neg (by
        rw [dc]
        exact hmem)]
      rw [df]

theorem C8_amended_fork_per_iteration_witness :
    1 ∈ (processOne exC8 1).writable
      ∧ ((processOne exC8 1).streams 1).flow_controlled_buffer = 6
      ∧ ((processOne exC8 1).streams 1).refcount = 2 := by
  have h := C8_amended_fork_per_iteration exC8 1 (by decide) (by decide) (by decide)
  refine ⟨h.1, ?_, ?_⟩
  · rw [h.2.1]
    decide
  · rw [h.2.2.2.2 (by decide)]
    decide

theorem phaseIM_C9gs (t : Transport) (ip : Nat) :
    ∃ gs, (phaseInitialMetadata t ip).1.outbuf = t.outbuf ++ gs
      ∧ ∀ f ∈ gs, isTerminalFrame ip f = false ∧ f ≠ Frame.rstStream ip := by
  unfold phaseInitialMetadata
  dsimp only
  split
  · refine ⟨[Frame.headers ip false], rfl, fun f hf => ?_⟩
    rw [List.mem_singleton.mp hf]
    simp [isTerminalFrame]
  · exact ⟨[], (List.append_nil _).symm, fun f hf => by simp at hf⟩

theorem phaseAnnounce_C9gs (t : Transport) (ip : Nat) :
    ∃ gs, (phaseAnnounce t ip).1.outbuf = t.outbuf ++ gs
      ∧ ∀ f ∈ gs, isTerminalFrame ip f = false ∧ f ≠ Frame.rstStream ip := by
  unfold phaseAnnounce
  dsimp only
  split
  · refine ⟨[Frame.windowUpdate ip (t.streams ip).announce_window], rfl, fun f hf => ?_⟩
    rw [List.mem_singleton.mp hf]
    simp [isTerminalFrame]
  · exact ⟨[], (List.append_nil _).symm, fun f hf => by simp at hf⟩

theorem phaseIM_misc (t : Transport) (ip j : Nat) :
    (phaseInitialMetadata t ip).1.is_client = t.is_client
      ∧ ((phaseInitialMetadata t ip).1.streams j).read_closed = (t.streams j).read_closed := by
  unfold phaseInitialMetadata
  dsimp only
  split
  · exact ⟨rfl, by by_cases hj : j = ip <;> simp [hj]⟩
  · exact ⟨rfl, rfl⟩

theorem phaseAnnounce_misc (t : Transport) (ip j : Nat) :
    (phaseAnnounce t ip).1.is_client = t.is_client
      ∧ ((phaseAnnounce t ip).1.streams j).read_closed = (t.streams j).read_closed := by
  unfold phaseAnnounce
  dsimp only
  split
  · exact ⟨rfl, by by_cases hj : j = ip <;> simp [hj]⟩
  · exact ⟨rfl, rfl⟩

theorem phaseData_misc (t : Transport) (ip j : Nat) :
    (phaseData t ip).1.is_client = t.is_client
      ∧ ((phaseData t ip).1.streams j).read_closed = (t.streams j).read_closed := by
  unfold phaseData
  dsimp only
  split_ifs <;> (try exact ⟨rfl, rfl⟩) <;>
    exact ⟨rfl, by by_cases hj : j = ip <;> simp [hj]⟩

theorem phaseTrailing_noop_none (t : Transport) (ip : Nat)
    (h : (t.streams ip).send_trailing_metadata = none) :
    phaseTrailing t ip = (t, false) := by
  unfold phaseTrailing
  dsimp only
  split
  · rfl
  · rename_i m heq
    rw [h] at heq
    cases heq

set_option maxHeartbeats 1000000 in
theorem phaseData_C9char (t : Transport) (ip : Nat) :
    (∃ gs, (phaseData t ip).1.outbuf = t.outbuf ++ gs
        ∧ (∀ f ∈ gs, isTerminalFrame ip f = false ∧ f ≠ Frame.rstStream ip)
        ∧ ((phaseData t ip).1.streams ip).sent_trailing_metadata
            = (t.streams ip).sent_trailing_metadata
        ∧ ((phaseData t ip).1.streams ip).send_trailing_metadata
            = (t.streams ip).send_trailing_metadata)
    ∨ (∃ n, (phaseData t ip).1.outbuf
          = t.outbuf ++ Frame.data ip n true
            :: (if (!t.is_client && !(t.streams ip).read_closed) = true
                then [Frame.rstStream ip] else [])
        ∧ ((phaseData t ip).1.streams ip).sent_trailing_metadata = true
        ∧ ((phaseData t ip).1.streams ip).send_trailing_metadata = none) := by
  unfold phaseData
  dsimp only
  split
  case isFalse =>
    exact Or.inl ⟨[], (List.append_nil _).symm, fun f hf => by simp at hf, rfl, rfl⟩
  case isTrue hbuf =>
    split
    case isFalse =>
      split
      · exact Or.inl ⟨[], (List.append_nil _).symm, fun f hf => by simp at hf, rfl, rfl⟩
      · exact Or.inl ⟨[], (List.append_nil _).symm, fun f hf => by simp at hf, rfl, rfl⟩
    case isTrue hmo =>
      by_cases hlast : (!(t.streams ip).fetching_send_message
          && decide (min (max_outgoing t (t.streams ip))
              (t.streams ip).flow_controlled_buffer
            = (t.streams ip).flow_controlled_buffer)
          && trailingEmpty (t.streams ip).send_trailing_metadata) = true
      · have heq : max_outgoing t (t.streams ip) ⊓ (t.streams ip).flow_controlled_buffer
            = (t.streams ip).flow_controlled_buffer := by
          have h2 := hlast
          rw [Bool.and_eq_true] at h2
          have h3 := h2.1
          rw [Bool.and_eq_true] at h3
          exact of_decide_eq_true h3.2
        rw [hlast]
        simp only [eq_self_iff_true, if_true, heq, Nat.sub_self, Bool.true_and]
        refine Or.inr ⟨(t.streams ip).flow_controlled_buffer, ?_, ?_, ?_⟩ <;>
          split_ifs <;> first | (exfalso; omega) | simp
      · rw [Bool.not_eq_true] at hlast
        rw [hlast]
        simp only [Bool.false_eq_true, Bool.false_and, if_false]
        refine Or.inl ⟨[Frame.data ip
            (min (max_outgoing t (t.streams ip)) (t.streams ip).flow_controlled_buffer)
            false], ?_, ?_, ?_, ?_⟩
        · split_ifs <;> rfl
        · intro f hf
          rw [List.mem_singleton.mp hf]
          simp [isTerminalFrame]
        · split_ifs <;> simp
        · split_ifs <;> simp

theorem phaseTrailing_C9char (t : Transport) (ip : Nat) :
    (phaseTrailing t ip).1 = t
    ∨ (∃ term, isTerminalFrame ip term = true
        ∧ (phaseTrailing t ip).1.outbuf
            = t.outbuf ++ term
              :: (if (!t.is_client && !(t.streams ip).read_closed) = true
                  then [Frame.rstStream ip] else [])
        ∧ ((phaseTrailing t ip).1.streams ip).sent_trailing_metadata = true
        ∧ ((phaseTrailing t ip).1.streams ip).send_trailing_metadata = none) := by
  unfold phaseTrailing
  dsimp only
  split
  · exact Or.inl rfl
  · rename_i m heq
    split
    · refine Or.inr ?_
      split_ifs with hempty hrst
      · exact ⟨Frame.data ip 0 true, by simp [isTerminalFrame], by simp, by simp, by simp⟩
      · exact ⟨Frame.headers ip true, by simp [isTerminalFrame], by simp, by simp, by simp⟩
      · exact ⟨Frame.data ip 0 true, by simp [isTerminalFrame], by simp, by simp, by simp⟩
      · exact ⟨Frame.headers ip true, by simp [isTerminalFrame], by simp, by simp, by simp⟩
    · exact Or.inl rfl

theorem processIter_t_eq (t : Transport) (i : Nat) :
    (processIter t i).t
      = if (phaseInitialMetadata t i).2.1 = true
        then (phaseTrailing (phaseData
            (phaseAnnounce (phaseInitialMetadata t i).1 i).1 i).1 i).1
        else (phaseAnnounce (phaseInitialMetadata t i).1 i).1 := by
  unfold processIter
  dsimp only
  split
  next h => rfl
  next h => rfl

set_option maxHeartbeats 1000000 in
/-- C9: when a stream reaches its terminal frame during its begin_write
iteration, the emitted frames are some non-terminal, non-reset frames,
then the terminal frame, followed immediately by a synthetic RST_STREAM
frame exactly when the transport is a server and the stream read side
is still open; for a client or an already read-closed stream no reset
frame for the stream is emitted. -/
theorem C9_rst_after_terminal (t : Transport) (i : Nat)
    (h0 : (t.streams i).sent_trailing_metadata = false)
    (h1 : ((processOne t i).streams i).sent_trailing_metadata = true) :
    ∃ pre term,
      (processOne t i).outbuf
          = t.outbuf ++ pre ++ term
            :: (if (!t.is_client && !(t.streams i).read_closed) = true
                then [Frame.rstStream i] else [])
        ∧ isTerminalFrame i term = true
        ∧ ∀ f ∈ pre, isTerminalFrame i f = false ∧ f ≠ Frame.rstStream i := by
  obtain ⟨fq, fo, r, fstr⟩ :=
    phaseFinish_effects (processIter t i).t i (processIter t i).now_writing
  have hdef : processOne t i
      = phaseFinish (processIter t i).t i (processIter t i).now_writing := rfl
  have hflag : ((processIter t i).t.streams i).sent_trailing_metadata = true := by
    rw [hdef, fstr i, if_pos rfl] at h1
    exact h1
  have houtf : (processOne t i).outbuf = (processIter t i).t.outbuf := by
    rw [hdef]
    exact fo
  rw [houtf]
  rw [processIter_t_eq] at hflag ⊢
  by_cases hc : (phaseInitialMetadata t i).2.1 = true
  · rw [if_pos hc] at hflag ⊢
    obtain ⟨gs1, hout1, hcl1⟩ := phaseIM_C9gs t i
    obtain ⟨gs2, hout2, hcl2⟩ := phaseAnnounce_C9gs (phaseInitialMetadata t i).1 i
    have hout12 : (phaseAnnounce (phaseInitialMetadata t i).1 i).1.outbuf
        = t.outbuf ++ (gs1 ++ gs2) := by
      rw [hout2, hout1, List.append_assoc]
    have htr2 : ((phaseAnnounce (phaseInitialMetadata t i).1 i).1.streams
        i).sent_trailing_metadata = (t.streams i).sent_trailing_metadata := by
      rw [(phaseAnnounce_trailing _ i i).1, (phaseIM_trailing t i i).1]
    have hic2 : (phaseAnnounce (phaseInitialMetadata t i).1 i).1.is_client = t.is_client := by
      rw [(phaseAnnounce_misc _ i i).1, (phaseIM_misc t i i).1]
    have hrc2 : ((phaseAnnounce (phaseInitialMetadata t i).1 i).1.streams i).read_closed
        = (t.streams i).read_closed := by
      rw [(phaseAnnounce_misc _ i i).2, (phaseIM_misc t i i).2]
    rcases phaseData_C9char (phaseAnnounce (phaseInitialMetadata t i).1 i).1 i with
      ⟨gs3, hout3, hcl3, hsent3, hsend3⟩ | ⟨n, hout3, hsent3, hsend3⟩
    · rcases phaseTrailing_C9char
        (phaseData (phaseAnnounce (phaseInitialMetadata t i).1 i).1 i).1 i with
        heqt | ⟨term, hterm, hout4, hsent4, hsend4⟩
      · rw [heqt] at hflag
        rw [hsent3, htr2, h0] at hflag
        cases hflag
      · refine ⟨gs1 ++ gs2 ++ gs3, term, ?_, hterm, ?_⟩
        · rw [hout4, hout3, hout12]
          have hicd : (phaseData
              (phaseAnnounce (phaseInitialMetadata t i).1 i).1 i).1.is_client
              = t.is_client := by
            rw [(phaseData_misc _ i i).1, hic2]
          have hrcd : ((phaseData
              (phaseAnnounce (phaseInitialMetadata t i).1 i).1 i).1.streams i).read_closed
              = (t.streams i).read_closed := by
            rw [(phaseData_misc _ i i).2, hrc2]
          rw [hicd, hrcd]
          simp [List.append_assoc]
        · intro f hf
          rcases List.mem_append.mp hf with hf2 | hf3
          · rcases List.mem_append.mp hf2 with hfa | hfb
            · exact hcl1 f hfa
            · exact hcl2 f hfb
          · exact hcl3 f hf3
    · have hnoop := phaseTrailing_noop_none
        (phaseData (phaseAnnounce (phaseInitialMetadata t i).1 i).1 i).1 i hsend3
      rw [hnoop]
      dsimp only
      refine ⟨gs1 ++ gs2, Frame.data i n true, ?_, by simp [isTerminalFrame], ?_⟩
      · rw [hout3, hout12, hic2, hrc2]
        try simp [List.append_assoc]
      · intro f hf
        rcases List.mem_append.mp hf with hfa | hfb
        · exact hcl1 f hfa
        · exact hcl2 f hfb
  · rw [if_neg hc] at hflag
    rw [(phaseAnnounce_trailing _ i i).1, (phaseIM_trailing t i i).1, h0] at hflag
    cases hflag

theorem C9_rst_after_terminal_witness :
    (processOne exC5 1).outbuf ≠ []
      ∧ ((processOne exC5 1).streams 1).sent_trailing_metadata = true := by
  obtain ⟨pre, term, hout, hterm, hpre⟩ := C9_rst_after_terminal exC5 1 (by decide) (by decide)
  refine ⟨?_, by decide⟩
  rw [hout]
  simp

theorem C4_callback_drain_witness :
    (CompletionTag.writeCb 100, Error.ok) ∈ (update_list exC4 1 10 Error.ok).completed
      ∧ (CompletionTag.writeCb 200, Error.ok)
          ∈ (update_list (update_list exC4 1 10 Error.ok) 1 15 Error.ok).completed := by
  constructor
  · have h := (C4_callback_drain exC4 1 10 Error.ok).2.2.1
    rw [h]
    decide
  · exact ((C4_callback_drain exC4 1 10 Error.ok).2.2.2.2
      { call_at_byte := 20, cbId := 200 } (by decide)).2 15 Error.ok (by decide)

end GrpcWriting
